import Mathlib

/-!
Lookie: scrape, deduplicate, persist.

A shallow embedding of `internal/scrapers/firestore_scraper.go` and
`internal/storage/firestore.go`, with the properties of the feed ingestion cycle proved or
refuted on it.

Conventions of the embedding:

* A Go string is a Lean `String`, that is, valid UTF-8; `len(s)` is `String.utf8ByteSize`, and
  `[]byte(s)` is the UTF-8 encoding.
* `crypto/sha256` is embedded in full, on bytes as natural numbers below 256 and 32-bit words
  as natural numbers reduced modulo `2 ^ 32`.
* The counters are natural numbers: each is bounded by the length of the slice it counts over.
* The service acts on a `World`: the Firestore collections and the trace of its interactions
  with the outside (log calls, feed fetches, store queries and writes, sleeps), in program
  order. What the outside answers (the fetched feed, the failure of a store call, the clock)
  is given by the `ItemEnv`, `CompanyEnv` and `SweepEnv` of a call.
* A function that can panic at run time returns an `Option`, `none` being the panic.
-/

namespace Lookie

/-! ## SHA-256 (`crypto/sha256`) and `%x` formatting -/

def mask32 (n : Nat) : Nat := n % 4294967296

def rotr (x n : Nat) : Nat := mask32 ((x >>> n) ||| (x <<< (32 - n)))

def sha256K : List Nat := [
  0x428a2f98, 0x71374491, 0xb5c0fbcf, 0xe9b5dba5, 0x3956c25b, 0x59f111f1, 0x923f82a4, 0xab1c5ed5,
  0xd807aa98, 0x12835b01, 0x243185be, 0x550c7dc3, 0x72be5d74, 0x80deb1fe, 0x9bdc06a7, 0xc19bf174,
  0xe49b69c1, 0xefbe4786, 0x0fc19dc6, 0x240ca1cc, 0x2de92c6f, 0x4a7484aa, 0x5cb0a9dc, 0x76f988da,
  0x983e5152, 0xa831c66d, 0xb00327c8, 0xbf597fc7, 0xc6e00bf3, 0xd5a79147, 0x06ca6351, 0x14292967,
  0x27b70a85, 0x2e1b2138, 0x4d2c6dfc, 0x53380d13, 0x650a7354, 0x766a0abb, 0x81c2c92e, 0x92722c85,
  0xa2bfe8a1, 0xa81a664b, 0xc24b8b70, 0xc76c51a3, 0xd192e819, 0xd6990624, 0xf40e3585, 0x106aa070,
  0x19a4c116, 0x1e376c08, 0x2748774c, 0x34b0bcb5, 0x391c0cb3, 0x4ed8aa4a, 0x5b9cca4f, 0x682e6ff3,
  0x748f82ee, 0x78a5636f, 0x84c87814, 0x8cc70208, 0x90befffa, 0xa4506ceb, 0xbef9a3f7, 0xc67178f2]

structure Digest where
  h0 : Nat
  h1 : Nat
  h2 : Nat
  h3 : Nat
  h4 : Nat
  h5 : Nat
  h6 : Nat
  h7 : Nat
deriving DecidableEq, Repr

def sha256Init : Digest :=
  ⟨0x6a09e667, 0xbb67ae85, 0x3c6ef372, 0xa54ff53a, 0x510e527f, 0x9b05688c, 0x1f83d9ab, 0x5be0cd19⟩

def beBytes : Nat → Nat → List Nat
  | 0, _ => []
  | k + 1, n => (n / 256 ^ k) % 256 :: beBytes k n

def sha256Pad (msg : List Nat) : List Nat :=
  msg ++ 0x80 :: List.replicate ((119 - msg.length % 64) % 64) 0 ++ beBytes 8 (8 * msg.length)

def beWord (bs : List Nat) : Nat := bs.foldl (fun acc b => acc * 256 + b) 0

def toWords : Nat → List Nat → List Nat
  | 0, _ => []
  | k + 1, bs => beWord (bs.take 4) :: toWords k (bs.drop 4)

def extendSchedule : Nat → List Nat → List Nat
  | 0, w => w
  | k + 1, w =>
    let n := w.length
    let w15 := w.getD (n - 15) 0
    let w2 := w.getD (n - 2) 0
    let s0 := rotr w15 7 ^^^ rotr w15 18 ^^^ (w15 >>> 3)
    let s1 := rotr w2 17 ^^^ rotr w2 19 ^^^ (w2 >>> 10)
    extendSchedule k (w ++ [mask32 (w.getD (n - 16) 0 + s0 + w.getD (n - 7) 0 + s1)])

def sha256Round (s : Digest) (kw : Nat × Nat) : Digest :=
  let S1 := rotr s.h4 6 ^^^ rotr s.h4 11 ^^^ rotr s.h4 25
  let ch := (s.h4 &&& s.h5) ^^^ ((4294967295 - s.h4) &&& s.h6)
  let t1 := mask32 (s.h7 + S1 + ch + kw.1 + kw.2)
  let S0 := rotr s.h0 2 ^^^ rotr s.h0 13 ^^^ rotr s.h0 22
  let maj := (s.h0 &&& s.h1) ^^^ (s.h0 &&& s.h2) ^^^ (s.h1 &&& s.h2)
  let t2 := mask32 (S0 + maj)
  ⟨mask32 (t1 + t2), s.h0, s.h1, s.h2, mask32 (s.h3 + t1), s.h4, s.h5, s.h6⟩

def sha256Block (s : Digest) (block : List Nat) : Digest :=
  let w := extendSchedule 48 (toWords 16 block)
  let r := (sha256K.zip w).foldl sha256Round s
  ⟨mask32 (s.h0 + r.h0), mask32 (s.h1 + r.h1), mask32 (s.h2 + r.h2), mask32 (s.h3 + r.h3),
   mask32 (s.h4 + r.h4), mask32 (s.h5 + r.h5), mask32 (s.h6 + r.h6), mask32 (s.h7 + r.h7)⟩

def sha256Blocks : Nat → Digest → List Nat → Digest
  | 0, s, _ => s
  | k + 1, s, bs => sha256Blocks k (sha256Block s (bs.take 64)) (bs.drop 64)

def Sum256 (msg : List Nat) : List Nat :=
  let p := sha256Pad msg
  let d := sha256Blocks (p.length / 64) sha256Init p
  beBytes 4 d.h0 ++ beBytes 4 d.h1 ++ beBytes 4 d.h2 ++ beBytes 4 d.h3 ++
  beBytes 4 d.h4 ++ beBytes 4 d.h5 ++ beBytes 4 d.h6 ++ beBytes 4 d.h7

def hexDigit (n : Nat) : Char := "0123456789abcdef".data.getD n '0'

def sprintfHex (bs : List Nat) : String :=
  String.mk (bs.flatMap fun b => [hexDigit (b / 16), hexDigit (b % 16)])

def utf8Encode (c : Char) : List Nat :=
  let v := c.toNat
  if v < 128 then [v]
  else if v < 2048 then [192 + v / 64, 128 + v % 64]
  else if v < 65536 then [224 + v / 4096, 128 + v / 64 % 64, 128 + v % 64]
  else [240 + v / 262144, 128 + v / 4096 % 64, 128 + v / 64 % 64, 128 + v % 64]

def stringBytes (s : String) : List Nat := s.data.flatMap utf8Encode



/-! ## Data model (`internal/models/firebase_models.go`, `gofeed.Item`) -/

/-- Go `time.Time`, as nanoseconds since the epoch. -/
abbrev Time := Nat

/-- The fields of `gofeed.Item` that `ScrapeCompany` reads. -/
structure Item where
  Title : String
  Description : String
  Content : String
  Link : String
  PublishedParsed : Option Time
deriving DecidableEq, Repr

structure CompanyStats where
  TotalArticles : Int
  ArticlesThisMonth : Int
  LastCaseStudy : Option Time
  LastFundingNews : Option Time
  /-- A `float64`, kept as its IEEE-754 bit pattern. -/
  AvgConfidenceScore : Nat
deriving DecidableEq, Repr

structure FirestoreCompany where
  ID : String
  Name : String
  Domain : String
  RSSURL : String
  NewsPageURL : String
  QuantumFocus : String
  MarketSegment : String
  Description : String
  IsActive : Bool
  RobotsTxtCompliant : Bool
  LastScrapedAt : Option Time
  CreatedAt : Time
  UpdatedAt : Time
  Stats : CompanyStats
deriving DecidableEq, Repr

structure Classification where
  ID : String
  ArticleID : String
  Category : String
  Subcategory : String
  /-- A `float64`, kept as its IEEE-754 bit pattern. -/
  ConfidenceScore : Nat
  AIModel : String
  Reasoning : String
  IsValidated : Bool
  ValidatedBy : String
  CreatedAt : Time
deriving DecidableEq, Repr

structure Entity where
  ID : String
  ArticleID : String
  EntityType : String
  EntityValue : String
  /-- A `float64`, kept as its IEEE-754 bit pattern. -/
  ConfidenceScore : Nat
  StartPosition : Int
  EndPosition : Int
  CreatedAt : Time
deriving DecidableEq, Repr

structure FirestoreArticle where
  ID : String
  CompanyID : String
  CompanyName : String
  URL : String
  Title : String
  Content : String
  Summary : String
  PublishedAt : Option Time
  ScrapedAt : Time
  SourceType : String
  ContentHash : String
  WordCount : Nat
  Language : String
  IsProcessed : Bool
  Classification : Option Classification
  TopEntities : List Entity
deriving DecidableEq, Repr

structure ScrapingRun where
  ID : String
  CompanyID : String
  CompanyName : String
  RunType : String
  Status : String
  ArticlesFound : Int
  ArticlesNew : Int
  ArticlesProcessed : Int
  ErrorMessage : String
  StartedAt : Time
  CompletedAt : Option Time
  DurationSeconds : Int
deriving DecidableEq, Repr

/-! ## The outside world: Firestore, the feed host, the logger, the clock -/

inductive Level where
  | debug
  | info
  | warn
  | error
deriving DecidableEq, Repr

/-- A value of a log field or of a query operand. -/
inductive Value where
  | str (s : String)
  | int (n : Nat)
  | bool (b : Bool)
deriving DecidableEq, Repr

/-- One interaction of the service with the outside, in program order. -/
inductive Event where
  | log (level : Level) (msg : String) (fields : List (String × Value))
  | parseURL (url : String)
  | query (collection : String) (field : String) (value : Value)
  | set (collection : String) (id : String)
  | sleep (seconds : Nat)
deriving DecidableEq, Repr

/-- A document of the `companies` collection: its reference id, its raw `is_active` field and
what `doc.DataTo(&company)` yields for it. -/
structure CompanyDoc where
  refID : String
  isActive : Bool
  data : Except String FirestoreCompany

/-- The state the service works on: the Firestore collections (documents keyed by document id,
in no particular order) and the trace of interactions so far. -/
structure World where
  articles : List (String × FirestoreArticle)
  companies : List CompanyDoc
  runs : List (String × ScrapingRun)
  trace : List Event

/-- What `iter.Next()` returns: a document, `iterator.Done`, or another error. -/
inductive IterNext (α : Type) where
  | doc (id : String) (d : α)
  | done
  | failed (msg : String)

def World.emit (w : World) (e : Event) : World :=
  { w with trace := w.trace ++ [e] }

/-- The document with the lowest name in a list: a Firestore query without `OrderBy` returns
its matches in ascending order of document name, so this is the one `Limit(1)` keeps. -/
def lowestName : List (String × FirestoreArticle) → Option (String × FirestoreArticle)
  | [] => none
  | d :: ds =>
    match lowestName ds with
    | none => some d
    | some e => if e.1 < d.1 then some e else some d

/-- The call `Collection("articles").Where("content_hash", "==", h).Limit(1).Documents(ctx)`
followed by one `iter.Next()`. `fault` is the error the backend answers with, if it fails. -/
def queryArticleByHash (fault : Option String) (h : String) (w : World) :
    IterNext FirestoreArticle × World :=
  let w1 := w.emit (Event.query "articles" "content_hash" (Value.str h))
  match fault with
  | some msg => (IterNext.failed msg, w1)
  | none =>
    match lowestName (w.articles.filter (fun d => d.2.ContentHash == h)) with
    | some d => (IterNext.doc d.1 d.2, w1)
    | none => (IterNext.done, w1)

/-- The call `Doc(id).Set(ctx, article)` on a collection: creates or replaces the document. -/
def setDoc (id : String) (a : FirestoreArticle) (docs : List (String × FirestoreArticle)) :
    List (String × FirestoreArticle) :=
  (id, a) :: docs.filter (fun d => d.1 != id)

/-! ## `internal/storage/firestore.go` -/

/-- `FirestoreDB.CheckArticleExists`: returns `(exists, err)`. -/
def CheckArticleExists (fault : Option String) (contentHash : String) (w : World) :
    (Bool × Option String) × World :=
  match queryArticleByHash fault contentHash w with
  | (IterNext.doc _ _, w1) => ((true, none), w1)
  | (_, w1) => ((false, none), w1)

/-! ## `internal/scrapers/firestore_scraper.go` -/

/-- What the outside does during one iteration of the item loop: the errors (if any) of the
existence query, of the duplicate query inside `saveFirestoreArticle` and of the `Set` call, and
the reading of `time.Now()`. -/
structure ItemEnv where
  checkFault : Option String
  saveQueryFault : Option String
  setFault : Option String
  now : Time

/-- What the outside does during one `ScrapeCompany` call: the outcome of `fp.ParseURL` and the
behaviour during the n-th loop iteration. -/
structure CompanyEnv where
  feed : Except String (List Item)
  item : Nat → ItemEnv

/-- What the outside does during one sweep: the failure of the `companies` iterator, if any, as
the number of documents it yields before failing and the error; and the behaviour during the
cycle of the n-th company. -/
structure SweepEnv where
  enumFault : Option (Nat × String)
  company : Nat → CompanyEnv

/-- `sha256.Sum256([]byte(item.Link + item.Title))` printed with `fmt.Sprintf("%x", hash)`. -/
def contentHash (item : Item) : String :=
  sprintfHex (Sum256 (stringBytes (item.Link ++ item.Title)))

/-- The slice expression `contentHash[:8]`; `none` is the run-time panic for a string shorter
than eight bytes. The argument is a hex string, where bytes and characters coincide. -/
def slice8 (s : String) : Option String :=
  if 8 ≤ s.utf8ByteSize then some (String.mk (s.data.take 8)) else none

def saveFirestoreArticle (env : ItemEnv) (article : FirestoreArticle) (w : World) :
    Option String × World :=
  let write (w0 : World) : Option String × World :=
    let w1 := w0.emit (Event.set "articles" article.ID)
    match env.setFault with
    | some e => (some ("failed to create article: " ++ e), w1)
    | none => (none, { w1 with articles := setDoc article.ID article w1.articles })
  if article.ContentHash != "" then
    match queryArticleByHash env.saveQueryFault article.ContentHash w with
    | (IterNext.doc id _, w1) =>
      (some ("article already exists with hash " ++ article.ContentHash ++ ": " ++ id), w1)
    | (_, w1) => write w1
  else write w

/-- The loop variables of `ScrapeCompany`. -/
structure ScrapeState where
  world : World
  newArticleCount : Nat
  duplicateCount : Nat

/-- One iteration of `for _, item := range feed.Items`; `none` is a run-time panic. -/
def scrapeItem (env : ItemEnv) (company : FirestoreCompany) (item : Item) (st : ScrapeState) :
    Option ScrapeState :=
  let content := if item.Description == "" then item.Content else item.Description
  let hash := contentHash item
  match CheckArticleExists env.checkFault hash st.world with
  | ((_, some err), w1) =>
    some { st with world := w1.emit (Event.log Level.warn
      "Failed to check article existence, skipping"
      [("company", Value.str company.Name), ("title", Value.str item.Title),
       ("error", Value.str err)]) }
  | ((true, none), w1) =>
    match slice8 hash with
    | none => none
    | some pre =>
      some { st with
        duplicateCount := st.duplicateCount + 1
        world := w1.emit (Event.log Level.debug "Article already exists, skipping"
          [("company", Value.str company.Name), ("title", Value.str item.Title),
           ("hash", Value.str pre)]) }
  | ((false, none), w1) =>
    match slice8 hash with
    | none => none
    | some pre =>
      let firestoreArticle : FirestoreArticle :=
        { ID := "article_" ++ company.ID ++ "_" ++ pre
          CompanyID := company.ID
          CompanyName := company.Name
          URL := item.Link
          Title := item.Title
          Content := content
          Summary := ""
          PublishedAt := item.PublishedParsed
          ScrapedAt := env.now
          SourceType := "rss"
          ContentHash := hash
          WordCount := content.utf8ByteSize
          Language := "en"
          IsProcessed := false
          Classification := none
          TopEntities := [] }
      match saveFirestoreArticle env firestoreArticle w1 with
      | (some err, w2) =>
        some { st with world := w2.emit (Event.log Level.error
          "Failed to save article to Firestore"
          [("company", Value.str company.Name), ("title", Value.str item.Title),
           ("error", Value.str err)]) }
      | (none, w2) =>
        some { st with
          newArticleCount := st.newArticleCount + 1
          world := w2.emit (Event.log Level.debug "New article saved successfully"
            [("company", Value.str company.Name), ("article_id", Value.str firestoreArticle.ID),
             ("title", Value.str item.Title), ("hash", Value.str pre)]) }

/-- The loop `for _, item := range feed.Items`, from the item at position `i` on. -/
def scrapeItems (env : Nat → ItemEnv) (company : FirestoreCompany) :
    List Item → Nat → ScrapeState → Option ScrapeState
  | [], _, st => some st
  | item :: rest, i, st =>
    match scrapeItem (env i) company item st with
    | none => none
    | some st1 => scrapeItems env company rest (i + 1) st1

/-- `FirestoreScraperService.ScrapeCompany`: returns `(newArticleCount, err)` and the world
after the call; `none` is a run-time panic. -/
def ScrapeCompany (env : CompanyEnv) (company : FirestoreCompany) (w : World) :
    Option ((Nat × Option String) × World) :=
  if company.RSSURL == "" then
    some ((0, some ("no RSS feed URL for company " ++ company.Name)), w)
  else
    let w1 := w.emit (Event.log Level.info "Scraping RSS feed"
      [("company", Value.str company.Name), ("url", Value.str company.RSSURL)])
    let w2 := w1.emit (Event.parseURL company.RSSURL)
    match env.feed with
    | Except.error e => some ((0, some ("failed to parse RSS feed: " ++ e)), w2)
    | Except.ok items =>
      match scrapeItems env.item company items 0 ⟨w2, 0, 0⟩ with
      | none => none
      | some st =>
        some ((st.newArticleCount, none),
          st.world.emit (Event.log Level.info "RSS feed scraping completed"
            [("company", Value.str company.Name), ("total_items", Value.int items.length),
             ("new_articles", Value.int st.newArticleCount),
             ("duplicates", Value.int st.duplicateCount)]))

/-- The documents the `companies` iterator yields before `iter.Next()` returns an error
(`iterator.Done` or a failure): the loop breaks on either. -/
def enumerated (fault : Option (Nat × String)) (docs : List CompanyDoc) : List CompanyDoc :=
  let active := docs.filter (fun d => d.isActive)
  match fault with
  | some (k, _) => active.take k
  | none => active

/-- The first loop of `ScrapeAllCompanies`: decode every enumerated document, warn about and
skip those that do not decode. -/
def collectCompanies : List CompanyDoc → World → List FirestoreCompany × World
  | [], w => ([], w)
  | d :: rest, w =>
    match d.data with
    | Except.error e =>
      collectCompanies rest (w.emit (Event.log Level.warn "Failed to parse company document"
        [("company_id", Value.str d.refID), ("error", Value.str e)]))
    | Except.ok c =>
      let r := collectCompanies rest w
      (c :: r.1, r.2)

/-- The loop variables of the second loop of `ScrapeAllCompanies`. -/
structure SweepState where
  world : World
  totalNewArticles : Nat
  totalErrors : Nat

/-- The loop `for _, company := range companies`, from the company at position `i` on. -/
def scrapeCompanies (env : Nat → CompanyEnv) :
    List FirestoreCompany → Nat → SweepState → Option SweepState
  | [], _, st => some st
  | company :: rest, i, st =>
    match ScrapeCompany (env i) company st.world with
    | none => none
    | some ((_, some err), w1) =>
      scrapeCompanies env rest (i + 1)
        { st with
          world := w1.emit (Event.log Level.error "Failed to scrape company"
            [("company", Value.str company.Name), ("error", Value.str err)])
          totalErrors := st.totalErrors + 1 }
    | some ((newArticles, none), w1) =>
      scrapeCompanies env rest (i + 1)
        { st with
          world := w1.emit (Event.sleep 2)
          totalNewArticles := st.totalNewArticles + newArticles }

/-- `FirestoreScraperService.ScrapeAllCompanies`: returns its `error` and the world after the
call; `none` is a run-time panic. -/
def ScrapeAllCompanies (env : SweepEnv) (w : World) : Option (Option String × World) :=
  let w1 := w.emit (Event.query "companies" "is_active" (Value.bool true))
  let (companies, w2) := collectCompanies (enumerated env.enumFault w1.companies) w1
  let w3 := w2.emit (Event.log Level.info "Starting scraping run for all companies"
    [("count", Value.int companies.length)])
  match scrapeCompanies env.company companies 0 ⟨w3, 0, 0⟩ with
  | none => none
  | some st =>
    some (none, st.world.emit (Event.log Level.info "Scraping run completed"
      [("companies_processed", Value.int companies.length),
       ("total_new_articles", Value.int st.totalNewArticles),
       ("errors", Value.int st.totalErrors)]))


/-! ## Vocabulary of the properties -/

/-- Is there an article with content hash `h` among the documents? -/
def holdsHash (docs : List (String × FirestoreArticle)) (h : String) : Bool :=
  docs.any (fun d => d.2.ContentHash == h)

/-- Each content hash belongs to at most one article document. -/
def UniqueHashes (docs : List (String × FirestoreArticle)) : Prop :=
  (docs.map (fun d => d.2.ContentHash)).Nodup

/-- The first eight characters of an item's content hash. -/
def hashHead (item : Item) : String :=
  String.mk ((contentHash item).data.take 8)

/-- The article `ScrapeCompany` builds for an item of a company's feed at time `now`. -/
def articleOf (now : Time) (company : FirestoreCompany) (item : Item) : FirestoreArticle :=
  { ID := "article_" ++ company.ID ++ "_" ++ hashHead item
    CompanyID := company.ID
    CompanyName := company.Name
    URL := item.Link
    Title := item.Title
    Content := if item.Description == "" then item.Content else item.Description
    Summary := ""
    PublishedAt := item.PublishedParsed
    ScrapedAt := now
    SourceType := "rss"
    ContentHash := contentHash item
    WordCount := (if item.Description == "" then item.Content else item.Description).utf8ByteSize
    Language := "en"
    IsProcessed := false
    Classification := none
    TopEntities := [] }

/-- The document id `ScrapeCompany` derives for an item of a company's feed. -/
def articleID (company : FirestoreCompany) (item : Item) : String :=
  "article_" ++ company.ID ++ "_" ++ hashHead item

/-- The world in which the item loop of a cycle starts: the start of the cycle is logged and
the feed has been fetched. -/
def cycleStart (company : FirestoreCompany) (w : World) : World :=
  (w.emit (Event.log Level.info "Scraping RSS feed"
    [("company", Value.str company.Name), ("url", Value.str company.RSSURL)])).emit
    (Event.parseURL company.RSSURL)

/-- The existence checks answer truthfully and the writes succeed, in every loop iteration. -/
def ChecksAndWritesSucceed (env : Nat → ItemEnv) : Prop :=
  ∀ i, (env i).checkFault = none ∧ (env i).setFault = none

/-- The existence checks answer truthfully, in every loop iteration. -/
def ChecksTruthful (env : Nat → ItemEnv) : Prop :=
  ∀ i, (env i).checkFault = none

/-- Both store lookups (the existence check and the duplicate query of the save) answer
truthfully, in every loop iteration. -/
def LookupsTruthful (env : Nat → ItemEnv) : Prop :=
  ∀ i, (env i).checkFault = none ∧ (env i).saveQueryFault = none

/-- The summary entry `ScrapeCompany` logs at the end of a cycle. -/
def cycleSummary (company : FirestoreCompany) (found new dup : Nat) : Event :=
  Event.log Level.info "RSS feed scraping completed"
    [("company", Value.str company.Name), ("total_items", Value.int found),
     ("new_articles", Value.int new), ("duplicates", Value.int dup)]

/-- The events of the item loop: log entries, queries, and writes to `articles`; no feed fetch,
no sleep, no write to another collection. -/
def itemEvent : Event → Bool
  | Event.log _ _ _ => true
  | Event.query _ _ _ => true
  | Event.set c _ => c == "articles"
  | Event.parseURL _ => false
  | Event.sleep _ => false

/-- The feed URLs fetched in a stretch of the trace, in order. -/
def fetches (evs : List Event) : List String :=
  evs.filterMap (fun e => match e with
    | Event.parseURL u => some u
    | _ => none)

/-- The event is not a write to a collection other than `articles`. -/
def articleWriteOnly : Event → Bool
  | Event.set c _ => c == "articles"
  | _ => true

/-- The world in which the sweep goes on after a cycle that returned `r` in world `w1`: the
failure is logged, or the sweep sleeps. -/
def afterCycle (company : FirestoreCompany) (r : Nat × Option String) (w1 : World) : World :=
  match r.2 with
  | some err => w1.emit (Event.log Level.error "Failed to scrape company"
      [("company", Value.str company.Name), ("error", Value.str err)])
  | none => w1.emit (Event.sleep 2)

/-- What the successive `ScrapeCompany` calls of a sweep over `companies` return, in order,
the first of them being the cycle number `i`, started in world `w`. -/
def cycleResults (env : Nat → CompanyEnv) :
    List FirestoreCompany → Nat → World → List (Nat × Option String)
  | [], _, _ => []
  | c :: rest, i, w =>
    match ScrapeCompany (env i) c w with
    | none => []
    | some (r, w1) => r :: cycleResults env rest (i + 1) (afterCycle c r w1)

/-- The number of cycles that returned an error. -/
def errorCount (rs : List (Nat × Option String)) : Nat :=
  (rs.filter (fun r => r.2.isSome)).length

/-- The sum of the new counts of the cycles that returned no error. -/
def newSum (rs : List (Nat × Option String)) : Nat :=
  ((rs.filter (fun r => r.2.isNone)).map (fun r => r.1)).sum

/-- The sources a sweep works through: the decoded documents of the enumeration. -/
def sweepSources (env : SweepEnv) (w : World) : List FirestoreCompany :=
  (collectCompanies (enumerated env.enumFault w.companies)
    (w.emit (Event.query "companies" "is_active" (Value.bool true)))).1

/-- The world in which the first cycle of a sweep starts. -/
def sweepStart (env : SweepEnv) (w : World) : World :=
  (collectCompanies (enumerated env.enumFault w.companies)
    (w.emit (Event.query "companies" "is_active" (Value.bool true)))).2.emit
    (Event.log Level.info "Starting scraping run for all companies"
      [("count", Value.int (sweepSources env w).length)])

/-- The summary entry `ScrapeAllCompanies` logs at the end of a sweep. -/
def sweepSummary (processed new errors : Nat) : Event :=
  Event.log Level.info "Scraping run completed"
    [("companies_processed", Value.int processed), ("total_new_articles", Value.int new),
     ("errors", Value.int errors)]

/-- The document is of the shape `ScrapeCompany` gives the articles of a company: it is keyed by
its own id, the id is `article_`, the company's id, `_` and the first eight characters of the
content hash, and the content hash is the fingerprint of the article's own URL and title. -/
def DerivedFor (company : FirestoreCompany) (d : String × FirestoreArticle) : Prop :=
  d.1 = d.2.ID ∧
  d.2.ID = "article_" ++ company.ID ++ "_" ++ String.mk (d.2.ContentHash.data.take 8) ∧
  d.2.CompanyID = company.ID ∧
  d.2.ContentHash = sprintfHex (Sum256 (stringBytes (d.2.URL ++ d.2.Title)))

/-- The number of words in a list of characters, `inWord` telling whether the character before
the list belongs to a word. -/
def countWordsFrom : List Char → Bool → Nat
  | [], _ => 0
  | c :: cs, inWord =>
    if c.isWhitespace then countWordsFrom cs false
    else (if inWord then 0 else 1) + countWordsFrom cs true

/-- The number of words of a text: its maximal runs of characters that are not white space. -/
def countWords (s : String) : Nat :=
  countWordsFrom s.data false

/-- The feed fetches and the sleeps of a trace, in order. -/
def pacing (trace : List Event) : List Event :=
  trace.filter (fun e => match e with
    | Event.parseURL _ => true
    | Event.sleep _ => true
    | _ => false)

/-- What becomes of an item in the loop of `ScrapeCompany`. -/
inductive ItemOutcome where
  | duplicate
  | saved
  | checkFailed
  | saveFailed
deriving DecidableEq, Repr

/-- What becomes of an item in world `w`, read off what the two store calls return: the
existence check returns an error, or it returns true, or the save returns an error, or the
save returns none. -/
def itemOutcome (env : ItemEnv) (company : FirestoreCompany) (item : Item) (w : World) :
    ItemOutcome :=
  match CheckArticleExists env.checkFault (contentHash item) w with
  | ((_, some _), _) => ItemOutcome.checkFailed
  | ((true, none), _) => ItemOutcome.duplicate
  | ((false, none), w1) =>
    match (saveFirestoreArticle env (articleOf env.now company item) w1).1 with
    | some _ => ItemOutcome.saveFailed
    | none => ItemOutcome.saved

/-- What becomes of the items of a feed, in order, the first of them being item number `i` of
the loop, which is in state `st`. -/
def itemOutcomes (env : Nat → ItemEnv) (company : FirestoreCompany) :
    List Item → Nat → ScrapeState → List ItemOutcome
  | [], _, _ => []
  | item :: rest, i, st =>
    itemOutcome (env i) company item st.world ::
      (match scrapeItem (env i) company item st with
      | none => []
      | some st1 => itemOutcomes env company rest (i + 1) st1)

/-- The number of items of a feed whose existence check or save failed: the existence query
failed, or the save returned an error. The first item is item number `i` of the loop, which is
in state `st`. -/
def failedItems (env : Nat → ItemEnv) (company : FirestoreCompany) :
    List Item → Nat → ScrapeState → Nat
  | [], _, _ => 0
  | item :: rest, i, st =>
    (if (env i).checkFault.isSome ||
        decide (itemOutcome (env i) company item st.world = ItemOutcome.saveFailed)
      then 1 else 0) +
      (match scrapeItem (env i) company item st with
      | none => 0
      | some st1 => failedItems env company rest (i + 1) st1)

/-- The document ids and content hashes of the store, in order. -/
def storeView (docs : List (String × FirestoreArticle)) : List (String × String) :=
  docs.map (fun d => (d.1, d.2.ContentHash))

/-! ## Example data -/

def exampleCompany : FirestoreCompany :=
  { ID := "ionq", Name := "IonQ", Domain := "ionq.com", RSSURL := "https://x.test/feed"
    NewsPageURL := "", QuantumFocus := "", MarketSegment := "", Description := ""
    IsActive := true, RobotsTxtCompliant := true, LastScrapedAt := none, CreatedAt := 0
    UpdatedAt := 0, Stats := ⟨0, 0, none, none, 0⟩ }

def otherCompany : FirestoreCompany :=
  { exampleCompany with ID := "rigetti", Name := "Rigetti", RSSURL := "https://y.test/rss" }

def itemA : Item :=
  { Title := "Trapped ions", Description := "first description", Content := ""
    Link := "https://x.test/a", PublishedParsed := none }

/-- The same link and title as `itemA`, another description and timestamp. -/
def itemA2 : Item :=
  { Title := "Trapped ions", Description := "second description", Content := "body"
    Link := "https://x.test/a", PublishedParsed := some 5 }

def itemB : Item :=
  { Title := "Another story", Description := "", Content := "text"
    Link := "https://x.test/b", PublishedParsed := some 9 }

/-- Two items with different content hashes, `a1a0585bd729...` and `a1a0585b476a...`, that
agree in their first eight characters. -/
def itemP : Item :=
  { Title := "News", Description := "p", Content := ""
    Link := "https://x.test/post/115695", PublishedParsed := none }

def itemQ : Item :=
  { Title := "News", Description := "q", Content := ""
    Link := "https://x.test/post/136761", PublishedParsed := none }

/-- A source without a feed URL. -/
def noFeedCompany : FirestoreCompany :=
  { exampleCompany with ID := "quera", Name := "QuEra", RSSURL := "" }

/-- Two items with different links and titles whose link followed by title is `abc`. -/
def itemAbC : Item :=
  { Title := "c", Description := "one", Content := "", Link := "ab", PublishedParsed := none }

def itemABc : Item :=
  { Title := "bc", Description := "two", Content := "", Link := "a", PublishedParsed := none }

/-- Three items with different content hashes, `10df82167978...`, `10df8216aab8...` and
`10df821607c2...`, that agree in their first eight characters. -/
def itemR1 : Item :=
  { Title := "News", Description := "r1", Content := ""
    Link := "https://x.test/post/199123", PublishedParsed := none }

def itemR2 : Item :=
  { Title := "News", Description := "r2", Content := ""
    Link := "https://x.test/post/3811928", PublishedParsed := none }

def itemR3 : Item :=
  { Title := "News", Description := "r3", Content := ""
    Link := "https://x.test/post/4119842", PublishedParsed := none }

/-- No store operation fails. -/
def calm : ItemEnv := ⟨none, none, none, 1000⟩

/-- Every write fails; the queries answer. -/
def writesFail : ItemEnv := ⟨none, none, some "rpc error: code = Unavailable", 1000⟩

/-- The existence query fails; the later operations succeed. -/
def checkFails : ItemEnv := ⟨some "rpc error: code = Unavailable", none, none, 1000⟩

/-- Both lookups fail; the write succeeds. -/
def lookupsFail : ItemEnv :=
  ⟨some "rpc error: code = Unavailable", some "rpc error: code = Unavailable", none, 1000⟩

/-- The duplicate query of the save fails; the write succeeds. -/
def saveQueryFails : ItemEnv := ⟨none, some "rpc error: code = Unavailable", none, 1000⟩

/-- The write fails for the first item and the existence query for the second; afterwards
nothing fails. -/
def mixedFaults : Nat → ItemEnv
  | 0 => writesFail
  | 1 => checkFails
  | _ => calm

def emptyWorld : World := ⟨[], [], [], []⟩

/-- A database with two active sources and no articles. -/
def sweepWorld : World :=
  ⟨[], [⟨"ionq", true, Except.ok exampleCompany⟩, ⟨"rigetti", true, Except.ok otherCompany⟩],
    [], []⟩

/-- A sweep in which every fetch returns the one item `itemA` and nothing fails. -/
def calmSweep : SweepEnv := ⟨none, fun _ => ⟨Except.ok [itemA], fun _ => calm⟩⟩

/-- A sweep in which the fetch of the first source fails and the later fetches return the one
item `itemA`. -/
def firstFetchFails : SweepEnv :=
  ⟨none, fun i => match i with
    | 0 => ⟨Except.error "context deadline exceeded", fun _ => calm⟩
    | _ => ⟨Except.ok [itemA], fun _ => calm⟩⟩

/-- A sweep in which the enumeration of the sources fails at once. -/
def enumFails : SweepEnv :=
  ⟨some (0, "rpc error: code = Unavailable"), fun _ => ⟨Except.ok [itemA], fun _ => calm⟩⟩

/-- A store that holds the article of `itemA`, scraped earlier for `otherCompany`. -/
def heldWorld : World :=
  ⟨[(articleID otherCompany itemA, articleOf 1 otherCompany itemA)], [], [], []⟩

/-! ## The digest is 64 hex characters -/

theorem hexDigit_utf8Size (n : Nat) : (hexDigit n).utf8Size = 1 := by
  have h : ∀ c ∈ '0' :: "0123456789abcdef".data, c.utf8Size = 1 := by decide
  apply h
  unfold hexDigit
  rw [List.getD_eq_getElem?_getD]
  cases hn : "0123456789abcdef".data[n]? with
  | none => exact List.mem_cons_self _ _
  | some c => exact List.mem_cons_of_mem _ (List.getElem?_mem hn)

theorem utf8Len_hex (bs : List Nat) :
    String.utf8Len (bs.flatMap fun b => [hexDigit (b / 16), hexDigit (b % 16)]) = 2 * bs.length := by
  induction bs with
  | nil => rfl
  | cons b bs ih =>
    simp only [List.flatMap_cons, List.cons_append, List.nil_append, String.utf8Len_cons, ih,
      hexDigit_utf8Size, List.length_cons]
    omega

theorem beBytes_length (k n : Nat) : (beBytes k n).length = k := by
  induction k with
  | zero => rfl
  | succ k ih => simp [beBytes, ih]

theorem Sum256_length (msg : List Nat) : (Sum256 msg).length = 32 := by
  simp [Sum256, beBytes_length]

theorem contentHash_utf8ByteSize (item : Item) : (contentHash item).utf8ByteSize = 64 := by
  simp [contentHash, sprintfHex, utf8Len_hex, Sum256_length]

theorem slice8_contentHash (item : Item) : slice8 (contentHash item) = some (hashHead item) := by
  simp [slice8, contentHash_utf8ByteSize, hashHead]

/-! ## The store operations -/

theorem lowestName_eq_none_iff (l : List (String × FirestoreArticle)) :
    lowestName l = none ↔ l = [] := by
  cases l with
  | nil => simp [lowestName]
  | cons d ds =>
    simp only [lowestName, reduceCtorEq, iff_false]
    cases lowestName ds with
    | none => simp
    | some e => by_cases h : e.1 < d.1 <;> simp [h]

theorem lowestName_hash_eq_none {docs : List (String × FirestoreArticle)} {h : String}
    (hh : holdsHash docs h = false) :
    lowestName (docs.filter (fun d => d.2.ContentHash == h)) = none := by
  rw [lowestName_eq_none_iff, List.filter_eq_nil_iff]
  intro d hd hdh
  have : holdsHash docs h = true := List.any_eq_true.mpr ⟨d, hd, hdh⟩
  simp [hh] at this

theorem lowestName_hash_isSome {docs : List (String × FirestoreArticle)} {h : String}
    (hh : holdsHash docs h = true) :
    ∃ d, lowestName (docs.filter (fun d => d.2.ContentHash == h)) = some d := by
  cases hf : lowestName (docs.filter (fun d => d.2.ContentHash == h)) with
  | some d => exact ⟨d, rfl⟩
  | none =>
    rw [lowestName_eq_none_iff, List.filter_eq_nil_iff] at hf
    obtain ⟨d, hd, hdh⟩ := List.any_eq_true.mp hh
    exact absurd hdh (hf d hd)

theorem CheckArticleExists_eq (fault : Option String) (h : String) (w : World) :
    CheckArticleExists fault h w =
      ((fault.isNone && holdsHash w.articles h, none),
        w.emit (Event.query "articles" "content_hash" (Value.str h))) := by
  unfold CheckArticleExists queryArticleByHash
  cases fault with
  | some m => rfl
  | none =>
    cases hh : holdsHash w.articles h with
    | false => simp [lowestName_hash_eq_none hh]
    | true =>
      obtain ⟨d, hd⟩ := lowestName_hash_isSome hh
      simp [hd]

theorem contentHash_ne_empty (item : Item) : contentHash item ≠ "" := by
  intro h
  have := contentHash_utf8ByteSize item
  rw [h] at this
  exact absurd this (by decide)

/-- The three outcomes of `saveFirestoreArticle` for an article with a content hash: conflict,
failed write, successful write. -/
theorem saveFirestoreArticle_cases (env : ItemEnv) (a : FirestoreArticle) (w : World)
    (hne : a.ContentHash ≠ "") :
    ∃ evs, (∀ e ∈ evs, itemEvent e = true) ∧
      ((env.saveQueryFault = none ∧ holdsHash w.articles a.ContentHash = true ∧
          ∃ msg, saveFirestoreArticle env a w = (some msg, { w with trace := w.trace ++ evs })) ∨
       (¬ (env.saveQueryFault = none ∧ holdsHash w.articles a.ContentHash = true) ∧
          ∃ e, env.setFault = some e ∧
            saveFirestoreArticle env a w = (some ("failed to create article: " ++ e),
              { w with trace := w.trace ++ evs })) ∨
       (¬ (env.saveQueryFault = none ∧ holdsHash w.articles a.ContentHash = true) ∧
          env.setFault = none ∧
            saveFirestoreArticle env a w =
              (none, { w with trace := w.trace ++ evs, articles := setDoc a.ID a w.articles }))) := by
  have hb : (a.ContentHash != "") = true := by simpa using hne
  unfold saveFirestoreArticle queryArticleByHash
  simp only [hb, if_true]
  cases hq : env.saveQueryFault with
  | some m =>
    cases hs : env.setFault with
    | some e =>
      refine ⟨[Event.query "articles" "content_hash" (Value.str a.ContentHash),
        Event.set "articles" a.ID], by simp [itemEvent], Or.inr (Or.inl ⟨by simp, e, rfl, ?_⟩)⟩
      simp [World.emit]
    | none =>
      refine ⟨[Event.query "articles" "content_hash" (Value.str a.ContentHash),
        Event.set "articles" a.ID], by simp [itemEvent], Or.inr (Or.inr ⟨by simp, rfl, ?_⟩)⟩
      simp [World.emit]
  | none =>
    cases hh : holdsHash w.articles a.ContentHash with
    | true =>
      obtain ⟨d, hd⟩ := lowestName_hash_isSome hh
      refine ⟨[Event.query "articles" "content_hash" (Value.str a.ContentHash)],
        by simp [itemEvent], Or.inl ⟨rfl, rfl, ?_⟩⟩
      simp [hd, World.emit]
    | false =>
      cases hs : env.setFault with
      | some e =>
        refine ⟨[Event.query "articles" "content_hash" (Value.str a.ContentHash),
          Event.set "articles" a.ID], by simp [itemEvent], Or.inr (Or.inl ⟨by simp, e, rfl, ?_⟩)⟩
        simp [lowestName_hash_eq_none hh, World.emit]
      | none =>
        refine ⟨[Event.query "articles" "content_hash" (Value.str a.ContentHash),
          Event.set "articles" a.ID], by simp [itemEvent], Or.inr (Or.inr ⟨by simp, rfl, ?_⟩)⟩
        simp [lowestName_hash_eq_none hh, World.emit]

/-- The three outcomes of one loop iteration: counted as duplicate, saved and counted as new,
or skipped after a failed save. It never panics, and it touches only the `articles` collection
and the trace. -/
theorem scrapeItem_cases (env : ItemEnv) (company : FirestoreCompany) (item : Item)
    (st : ScrapeState) :
    ∃ st1 evs, scrapeItem env company item st = some st1 ∧
      st1.world.trace = st.world.trace ++ evs ∧ (∀ e ∈ evs, itemEvent e = true) ∧
      st1.world.companies = st.world.companies ∧ st1.world.runs = st.world.runs ∧
      ((env.checkFault = none ∧ holdsHash st.world.articles (contentHash item) = true ∧
          st1.newArticleCount = st.newArticleCount ∧
          st1.duplicateCount = st.duplicateCount + 1 ∧
          st1.world.articles = st.world.articles) ∨
       (¬ (env.checkFault = none ∧ holdsHash st.world.articles (contentHash item) = true) ∧
          ¬ (env.saveQueryFault = none ∧
              holdsHash st.world.articles (contentHash item) = true) ∧
          env.setFault = none ∧
          st1.newArticleCount = st.newArticleCount + 1 ∧
          st1.duplicateCount = st.duplicateCount ∧
          st1.world.articles =
            setDoc (articleOf env.now company item).ID (articleOf env.now company item)
              st.world.articles) ∨
       (¬ (env.checkFault = none ∧ holdsHash st.world.articles (contentHash item) = true) ∧
          ((env.saveQueryFault = none ∧
              holdsHash st.world.articles (contentHash item) = true) ∨
            env.setFault ≠ none) ∧
          st1.newArticleCount = st.newArticleCount ∧
          st1.duplicateCount = st.duplicateCount ∧
          st1.world.articles = st.world.articles)) := by
  unfold scrapeItem
  simp only [CheckArticleExists_eq, slice8_contentHash]
  cases hb : (env.checkFault.isNone && holdsHash st.world.articles (contentHash item)) with
  | true =>
    simp only [Bool.and_eq_true, Option.isNone_iff_eq_none] at hb
    refine ⟨_, [Event.query "articles" "content_hash" (Value.str (contentHash item)),
      Event.log Level.debug "Article already exists, skipping"
        [("company", Value.str company.Name), ("title", Value.str item.Title),
         ("hash", Value.str (hashHead item))]], rfl, ?_, by simp [itemEvent], rfl, rfl,
      Or.inl ⟨hb.1, hb.2, rfl, rfl, rfl⟩⟩
    simp [World.emit]
  | false =>
    have hnb : ¬ (env.checkFault = none ∧
        holdsHash st.world.articles (contentHash item) = true) := by
      intro h
      simp [h.1, h.2] at hb
    have hart : (articleOf env.now company item).ContentHash = contentHash item := rfl
    obtain ⟨evs, hevs, hcase⟩ := saveFirestoreArticle_cases env (articleOf env.now company item)
      (st.world.emit (Event.query "articles" "content_hash" (Value.str (contentHash item))))
      (by rw [hart]; exact contentHash_ne_empty item)
    rw [hart] at hcase
    have hsame : (st.world.emit (Event.query "articles" "content_hash"
        (Value.str (contentHash item)))).articles = st.world.articles := rfl
    rw [hsame] at hcase
    show ∃ st1 evs, (match saveFirestoreArticle env (articleOf env.now company item)
        (st.world.emit (Event.query "articles" "content_hash" (Value.str (contentHash item)))) with
      | (some err, w2) => some { st with world := w2.emit (Event.log Level.error
          "Failed to save article to Firestore"
          [("company", Value.str company.Name), ("title", Value.str item.Title),
           ("error", Value.str err)]) }
      | (none, w2) => some { st with
          newArticleCount := st.newArticleCount + 1
          world := w2.emit (Event.log Level.debug "New article saved successfully"
            [("company", Value.str company.Name),
             ("article_id", Value.str (articleOf env.now company item).ID),
             ("title", Value.str item.Title), ("hash", Value.str (hashHead item))]) }) = some st1 ∧ _
    rcases hcase with ⟨hq, hh, msg, hsave⟩ | ⟨hn, e, he, hsave⟩ | ⟨hn, hs, hsave⟩
    · rw [hsave]
      refine ⟨_, Event.query "articles" "content_hash" (Value.str (contentHash item)) :: evs ++
        [Event.log Level.error "Failed to save article to Firestore"
          [("company", Value.str company.Name), ("title", Value.str item.Title),
           ("error", Value.str msg)]], rfl, ?_, ?_, rfl, rfl,
        Or.inr (Or.inr ⟨hnb, Or.inl ⟨hq, hh⟩, rfl, rfl, rfl⟩)⟩
      · simp [World.emit]
      · intro e he
        simp only [List.cons_append, List.mem_cons, List.mem_append, List.mem_singleton,
          List.not_mem_nil, or_false] at he
        rcases he with rfl | he | rfl
        · rfl
        · exact hevs e he
        · rfl
    · rw [hsave]
      refine ⟨_, Event.query "articles" "content_hash" (Value.str (contentHash item)) :: evs ++
        [Event.log Level.error "Failed to save article to Firestore"
          [("company", Value.str company.Name), ("title", Value.str item.Title),
           ("error", Value.str ("failed to create article: " ++ e))]], rfl, ?_, ?_, rfl, rfl,
        Or.inr (Or.inr ⟨hnb, Or.inr (by simp [he]), rfl, rfl, rfl⟩)⟩
      · simp [World.emit]
      · intro e he
        simp only [List.cons_append, List.mem_cons, List.mem_append, List.mem_singleton,
          List.not_mem_nil, or_false] at he
        rcases he with rfl | he | rfl
        · rfl
        · exact hevs e he
        · rfl
    · rw [hsave]
      refine ⟨_, Event.query "articles" "content_hash" (Value.str (contentHash item)) :: evs ++
        [Event.log Level.debug "New article saved successfully"
          [("company", Value.str company.Name),
           ("article_id", Value.str (articleOf env.now company item).ID),
           ("title", Value.str item.Title), ("hash", Value.str (hashHead item))]],
        rfl, ?_, ?_, rfl, rfl, Or.inr (Or.inl ⟨hnb, hn, hs, rfl, rfl, rfl⟩)⟩
      · simp [World.emit]
      · intro e he
        simp only [List.cons_append, List.mem_cons, List.mem_append, List.mem_singleton,
          List.not_mem_nil, or_false] at he
        rcases he with rfl | he | rfl
        · rfl
        · exact hevs e he
        · rfl

/-! ## The item loop -/

/-- The item loop never panics; it only appends item events to the trace and leaves the
`companies` and run documents alone. -/
theorem scrapeItems_total (env : Nat → ItemEnv) (company : FirestoreCompany) :
    ∀ (items : List Item) (i : Nat) (st : ScrapeState),
      ∃ st1 evs, scrapeItems env company items i st = some st1 ∧
        st1.world.trace = st.world.trace ++ evs ∧ (∀ e ∈ evs, itemEvent e = true) ∧
        st1.world.companies = st.world.companies ∧ st1.world.runs = st.world.runs := by
  intro items
  induction items with
  | nil => exact fun i st => ⟨st, [], rfl, by simp, by simp, rfl, rfl⟩
  | cons item rest ih =>
    intro i st
    obtain ⟨st1, evs1, h1, ht1, he1, hc1, hr1, -⟩ := scrapeItem_cases (env i) company item st
    obtain ⟨st2, evs2, h2, ht2, he2, hc2, hr2⟩ := ih (i + 1) st1
    refine ⟨st2, evs1 ++ evs2, ?_, ?_, ?_, hc2.trans hc1, hr2.trans hr1⟩
    · simp only [scrapeItems, h1, h2]
    · rw [ht2, ht1, List.append_assoc]
    · intro e he
      rcases List.mem_append.mp he with h | h
      · exact he1 e h
      · exact he2 e h

/-- With truthful existence checks and successful writes every item is counted, as new or as
duplicate. -/
theorem scrapeItems_count (env : Nat → ItemEnv) (company : FirestoreCompany)
    (henv : ChecksAndWritesSucceed env) :
    ∀ (items : List Item) (i : Nat) (st : ScrapeState),
      ∃ st1, scrapeItems env company items i st = some st1 ∧
        st1.newArticleCount + st1.duplicateCount =
          st.newArticleCount + st.duplicateCount + items.length := by
  intro items
  induction items with
  | nil => exact fun i st => ⟨st, rfl, rfl⟩
  | cons item rest ih =>
    intro i st
    obtain ⟨st1, evs1, h1, -, -, -, -, hcase⟩ := scrapeItem_cases (env i) company item st
    obtain ⟨st2, h2, hcount⟩ := ih (i + 1) st1
    refine ⟨st2, by simp only [scrapeItems, h1, h2], ?_⟩
    rcases hcase with ⟨-, -, hn, hd, -⟩ | ⟨-, -, -, hn, hd, -⟩ | ⟨hnc, hfail, -⟩
    · rw [hcount, hn, hd, List.length_cons]; omega
    · rw [hcount, hn, hd, List.length_cons]; omega
    · exfalso
      rcases hfail with ⟨-, hh⟩ | hs
      · exact hnc ⟨(henv i).1, hh⟩
      · exact hs (henv i).2

theorem holdsHash_eq_false_iff {docs : List (String × FirestoreArticle)} {h : String} :
    holdsHash docs h = false ↔ h ∉ docs.map (fun d => d.2.ContentHash) := by
  simp only [holdsHash, List.any_eq_false, List.mem_map, not_exists, not_and, beq_iff_eq]

/-- Writing an article whose hash the store does not hold keeps the hashes unique. -/
theorem setDoc_unique {docs : List (String × FirestoreArticle)} (id : String)
    (a : FirestoreArticle) (hu : UniqueHashes docs) (hh : holdsHash docs a.ContentHash = false) :
    UniqueHashes (setDoc id a docs) := by
  unfold UniqueHashes setDoc
  rw [List.map_cons, List.nodup_cons]
  constructor
  · intro hmem
    have hsub : (docs.filter (fun d => d.1 != id)).map (fun d => d.2.ContentHash) ⊆
        docs.map (fun d => d.2.ContentHash) :=
      List.map_subset _ (List.filter_sublist _).subset
    exact (holdsHash_eq_false_iff.mp hh) (hsub hmem)
  · exact List.Nodup.sublist (List.Sublist.map _ (List.filter_sublist _)) hu

/-- With truthful existence checks the item loop keeps the hashes unique. -/
theorem scrapeItems_unique (env : Nat → ItemEnv) (company : FirestoreCompany)
    (henv : ChecksTruthful env) :
    ∀ (items : List Item) (i : Nat) (st : ScrapeState), UniqueHashes st.world.articles →
      ∃ st1, scrapeItems env company items i st = some st1 ∧
        UniqueHashes st1.world.articles := by
  intro items
  induction items with
  | nil => exact fun i st hu => ⟨st, rfl, hu⟩
  | cons item rest ih =>
    intro i st hu
    obtain ⟨st1, evs1, h1, -, -, -, -, hcase⟩ := scrapeItem_cases (env i) company item st
    have hu1 : UniqueHashes st1.world.articles := by
      rcases hcase with ⟨-, -, -, -, ha⟩ | ⟨hnc, -, -, -, -, ha⟩ | ⟨-, -, -, -, ha⟩
      · rw [ha]; exact hu
      · rw [ha]
        apply setDoc_unique _ _ hu
        cases hh : holdsHash st.world.articles (contentHash item) with
        | false => exact hh
        | true => exact absurd ⟨henv i, hh⟩ hnc
      · rw [ha]; exact hu
    obtain ⟨st2, h2, hu2⟩ := ih (i + 1) st1 hu1
    exact ⟨st2, by simp only [scrapeItems, h1, h2], hu2⟩

/-- With truthful existence checks, items whose hashes the store holds are all counted as
duplicates and the store is left as it was. -/
theorem scrapeItems_all_held (env : Nat → ItemEnv) (company : FirestoreCompany)
    (henv : ChecksTruthful env) :
    ∀ (items : List Item) (i : Nat) (st : ScrapeState),
      (∀ it ∈ items, holdsHash st.world.articles (contentHash it) = true) →
      ∃ st1, scrapeItems env company items i st = some st1 ∧
        st1.newArticleCount = st.newArticleCount ∧
        st1.duplicateCount = st.duplicateCount + items.length ∧
        st1.world.articles = st.world.articles := by
  intro items
  induction items with
  | nil => exact fun i st _ => ⟨st, rfl, rfl, rfl, rfl⟩
  | cons item rest ih =>
    intro i st hall
    have hitem := hall item (List.mem_cons_self _ _)
    obtain ⟨st1, evs1, h1, -, -, -, -, hcase⟩ := scrapeItem_cases (env i) company item st
    rcases hcase with ⟨-, -, hn, hd, ha⟩ | ⟨hnc, -⟩ | ⟨hnc, -⟩
    · obtain ⟨st2, h2, hn2, hd2, ha2⟩ := ih (i + 1) st1 (by
        intro it hit
        rw [ha]
        exact hall it (List.mem_cons_of_mem _ hit))
      refine ⟨st2, by simp only [scrapeItems, h1, h2], hn2.trans hn, ?_, ha2.trans ha⟩
      rw [hd2, hd, List.length_cons]; omega
    · exact absurd ⟨henv i, hitem⟩ hnc
    · exact absurd ⟨henv i, hitem⟩ hnc

theorem articleID_ne {company : FirestoreCompany} {a b : Item} (h : hashHead a ≠ hashHead b) :
    articleID company a ≠ articleID company b := by
  intro he
  apply h
  have hd := congrArg String.data he
  simp only [articleID, String.data_append, List.append_cancel_left_eq] at hd
  exact String.ext hd

theorem contentHash_ne {a b : Item} (h : hashHead a ≠ hashHead b) :
    contentHash a ≠ contentHash b := by
  intro he
  apply h
  unfold hashHead
  rw [he]

theorem holdsHash_setDoc_of_ne {docs : List (String × FirestoreArticle)} {id h : String}
    {a : FirestoreArticle} (hne : a.ContentHash ≠ h) (hh : holdsHash docs h = false) :
    holdsHash (setDoc id a docs) h = false := by
  rw [holdsHash_eq_false_iff] at hh ⊢
  intro hmem
  simp only [setDoc, List.map_cons, List.mem_cons, List.mem_map, List.mem_filter] at hmem
  rcases hmem with h1 | ⟨d, ⟨hd, -⟩, hdh⟩
  · exact hne h1.symm
  · exact hh (List.mem_map.mpr ⟨d, hd, hdh⟩)

theorem mem_setDoc_of_ne {docs : List (String × FirestoreArticle)} {id : String}
    {a : FirestoreArticle} {d : String × FirestoreArticle} (hd : d ∈ docs) (hne : d.1 ≠ id) :
    d ∈ setDoc id a docs := by
  simp only [setDoc, List.mem_cons, List.mem_filter]
  exact Or.inr ⟨hd, by simpa using hne⟩

theorem holdsHash_of_mem {docs : List (String × FirestoreArticle)} {h : String}
    {d : String × FirestoreArticle} (hd : d ∈ docs) (hh : d.2.ContentHash = h) :
    holdsHash docs h = true :=
  List.any_eq_true.mpr ⟨d, hd, by simpa using hh⟩

/-- With truthful existence checks and successful writes, items whose hashes the store does not
hold and whose hashes differ in their first eight characters are all saved as new, each under
its own document id. -/
theorem scrapeItems_all_new (env : Nat → ItemEnv) (company : FirestoreCompany)
    (henv : ChecksAndWritesSucceed env) :
    ∀ (items : List Item) (i : Nat) (st : ScrapeState),
      (∀ it ∈ items, holdsHash st.world.articles (contentHash it) = false) →
      (items.map hashHead).Nodup →
      ∃ st1, scrapeItems env company items i st = some st1 ∧
        st1.newArticleCount = st.newArticleCount + items.length ∧
        st1.duplicateCount = st.duplicateCount ∧
        (∀ it ∈ items, ∃ d ∈ st1.world.articles,
          d.1 = articleID company it ∧ d.2.ContentHash = contentHash it) ∧
        (∀ d ∈ st.world.articles, (∀ it ∈ items, d.1 ≠ articleID company it) →
          d ∈ st1.world.articles) := by
  intro items
  induction items with
  | nil => exact fun i st _ _ => ⟨st, rfl, rfl, rfl, by simp, fun d hd _ => hd⟩
  | cons item rest ih =>
    intro i st hfresh hnodup
    have hitem := hfresh item (List.mem_cons_self _ _)
    rw [List.map_cons, List.nodup_cons] at hnodup
    have hhead : ∀ it ∈ rest, hashHead item ≠ hashHead it := by
      intro it hit he
      exact hnodup.1 (List.mem_map.mpr ⟨it, hit, he.symm⟩)
    obtain ⟨st1, evs1, h1, -, -, -, -, hcase⟩ := scrapeItem_cases (env i) company item st
    rcases hcase with ⟨-, hh, -⟩ | ⟨-, -, -, hn, hd, ha⟩ | ⟨hnc, hfail, -⟩
    · rw [hitem] at hh
      exact absurd hh (by decide)
    · have hfresh1 : ∀ it ∈ rest, holdsHash st1.world.articles (contentHash it) = false := by
        intro it hit
        rw [ha]
        exact holdsHash_setDoc_of_ne (contentHash_ne (hhead it hit))
          (hfresh it (List.mem_cons_of_mem _ hit))
      obtain ⟨st2, h2, hn2, hd2, hall2, hkeep2⟩ := ih (i + 1) st1 hfresh1 hnodup.2
      refine ⟨st2, by simp only [scrapeItems, h1, h2], ?_, hd2.trans hd, ?_, ?_⟩
      · rw [hn2, hn, List.length_cons]; omega
      · intro it hit
        rcases List.mem_cons.mp hit with rfl | hit
        · refine ⟨(articleID company it, articleOf (env i).now company it), ?_, rfl, rfl⟩
          apply hkeep2
          · rw [ha]
            exact List.mem_cons_self _ _
          · intro it2 hit2
            exact articleID_ne (hhead it2 hit2)
        · exact hall2 it hit
      · intro d hd0 hids
        apply hkeep2
        · rw [ha]
          exact mem_setDoc_of_ne hd0 (hids item (List.mem_cons_self _ _))
        · intro it hit
          exact hids it (List.mem_cons_of_mem _ hit)
    · exfalso
      rcases hfail with ⟨-, hh⟩ | hs
      · exact hnc ⟨(henv i).1, hh⟩
      · exact hs (henv i).2

/-! ## One cycle -/

theorem getLast_emit (w : World) (e : Event) : (w.emit e).trace.getLast? = some e := by
  simp [World.emit]

/-- A cycle whose fetch succeeds returns the new-article counter of the item loop and logs the
summary of the loop's counters. -/
theorem ScrapeCompany_of_items {env : CompanyEnv} {company : FirestoreCompany} {w : World}
    {items : List Item} {st : ScrapeState} (hurl : company.RSSURL ≠ "")
    (hfeed : env.feed = Except.ok items)
    (hloop : scrapeItems env.item company items 0 ⟨cycleStart company w, 0, 0⟩ = some st) :
    ScrapeCompany env company w = some ((st.newArticleCount, none),
      st.world.emit (cycleSummary company items.length st.newArticleCount st.duplicateCount)) := by
  have hb : (company.RSSURL == "") = false := by simpa using hurl
  unfold ScrapeCompany
  simp only [hb, hfeed]
  unfold cycleStart at hloop
  simp only [hloop]
  rfl

/-! ## Claims about one cycle -/

set_option maxRecDepth 1000000

/-- C1 (as stated, refuted), at two feed snapshots scraped into an empty store, which holds
none of their fingerprints, with no store failure. For two items with the same link and title
the first `ScrapeCompany` reports 1 new article and 1 duplicate, not 2 and 0. For two items
whose different hashes agree in their first eight characters the first `ScrapeCompany` reports
2 new articles and 0 duplicates and leaves one document, and the second `ScrapeCompany` on the
resulting store reports 2 new articles and 0 duplicates again, not 0 and 2. And for two
unrelated items and a store whose writes fail the first `ScrapeCompany` reports 0 new
articles. -/
theorem C1_idempotence_counterexample :
    ((∀ it ∈ [itemA, itemA2], holdsHash emptyWorld.articles (contentHash it) = false) ∧
      (ScrapeCompany ⟨Except.ok [itemA, itemA2], fun _ => calm⟩ exampleCompany emptyWorld).map
          (fun r => (r.1, r.2.trace.getLast?)) =
        some ((1, none), some (cycleSummary exampleCompany 2 1 1))) ∧
    ((∀ it ∈ [itemP, itemQ], holdsHash emptyWorld.articles (contentHash it) = false) ∧
      contentHash itemP ≠ contentHash itemQ ∧ hashHead itemP = hashHead itemQ ∧
      (ScrapeCompany ⟨Except.ok [itemP, itemQ], fun _ => calm⟩ exampleCompany emptyWorld).map
          (fun r => (r.1, r.2.trace.getLast?, r.2.articles.length)) =
        some ((2, none), some (cycleSummary exampleCompany 2 2 0), 1) ∧
      ((ScrapeCompany ⟨Except.ok [itemP, itemQ], fun _ => calm⟩ exampleCompany emptyWorld).bind
          (fun r => ScrapeCompany ⟨Except.ok [itemP, itemQ], fun _ => calm⟩ exampleCompany
            r.2)).map (fun r => (r.1, r.2.trace.getLast?)) =
        some ((2, none), some (cycleSummary exampleCompany 2 2 0))) ∧
    (ScrapeCompany ⟨Except.ok [itemA, itemB], fun _ => writesFail⟩ exampleCompany
        emptyWorld).map (fun r => (r.1, r.2.trace.getLast?)) =
      some ((0, none), some (cycleSummary exampleCompany 2 0 0)) := by
  decide

/-- C1 (amended): for every feed snapshot of N items whose fingerprints differ pairwise in their
first eight characters, and every store that holds none of the items' fingerprints: a first
`ScrapeCompany` whose existence checks answer truthfully and whose writes succeed returns N and
logs N new articles and 0 duplicates, and a second `ScrapeCompany` over the same snapshot on
the resulting store, with truthful existence checks, returns 0 and logs 0 new articles and N
duplicates. -/
theorem C1_idempotence (company : FirestoreCompany) (items : List Item)
    (env1 env2 : CompanyEnv) (w : World) (hurl : company.RSSURL ≠ "")
    (hfeed1 : env1.feed = Except.ok items) (hfeed2 : env2.feed = Except.ok items)
    (henv1 : ChecksAndWritesSucceed env1.item) (henv2 : ChecksTruthful env2.item)
    (hfresh : ∀ it ∈ items, holdsHash w.articles (contentHash it) = false)
    (hdistinct : (items.map hashHead).Nodup) :
    ∃ w1 w2,
      ScrapeCompany env1 company w = some ((items.length, none), w1) ∧
      w1.trace.getLast? = some (cycleSummary company items.length items.length 0) ∧
      ScrapeCompany env2 company w1 = some ((0, none), w2) ∧
      w2.trace.getLast? = some (cycleSummary company items.length 0 items.length) := by
  obtain ⟨st1, h1, hn1, hd1, hall1, -⟩ :=
    scrapeItems_all_new env1.item company henv1 items 0 ⟨cycleStart company w, 0, 0⟩ hfresh
      hdistinct
  have hheld : ∀ it ∈ items,
      holdsHash (cycleStart company (st1.world.emit
        (cycleSummary company items.length st1.newArticleCount st1.duplicateCount))).articles
        (contentHash it) = true := by
    intro it hit
    obtain ⟨d, hd, -, hdh⟩ := hall1 it hit
    exact holdsHash_of_mem hd hdh
  obtain ⟨st2, h2, hn2, hd2, -⟩ :=
    scrapeItems_all_held env2.item company henv2 items 0 ⟨cycleStart company (st1.world.emit
      (cycleSummary company items.length st1.newArticleCount st1.duplicateCount)), 0, 0⟩ hheld
  have hr1 := ScrapeCompany_of_items hurl hfeed1 h1
  have hr2 := ScrapeCompany_of_items hurl hfeed2 h2
  simp only [Nat.zero_add] at hn1 hd1 hn2 hd2
  rw [hn1, hd1] at hr1
  rw [hn2, hd2] at hr2
  rw [hn1, hd1] at hr2
  exact ⟨_, _, hr1, getLast_emit _ _, hr2, getLast_emit _ _⟩

/-- C1 (amended), at a feed of two unrelated items scraped twice into an empty store. -/
theorem C1_idempotence_witness :
    ([itemA, itemB].map hashHead).Nodup ∧
    ∃ w1 w2,
      ScrapeCompany ⟨Except.ok [itemA, itemB], fun _ => calm⟩ exampleCompany emptyWorld =
        some (([itemA, itemB].length, none), w1) ∧
      w1.trace.getLast? =
        some (cycleSummary exampleCompany [itemA, itemB].length [itemA, itemB].length 0) ∧
      ScrapeCompany ⟨Except.ok [itemA, itemB], fun _ => calm⟩ exampleCompany w1 =
        some ((0, none), w2) ∧
      w2.trace.getLast? =
        some (cycleSummary exampleCompany [itemA, itemB].length 0 [itemA, itemB].length) :=
  ⟨by decide,
   C1_idempotence exampleCompany [itemA, itemB] ⟨Except.ok [itemA, itemB], fun _ => calm⟩
    ⟨Except.ok [itemA, itemB], fun _ => calm⟩ emptyWorld (by decide) rfl rfl
    (fun _ => ⟨rfl, rfl⟩) (fun _ => rfl) (fun _ _ => rfl) (by decide)⟩

/-- C2: for every store in which each content hash belongs to at most one article, every
company and every outcome of the feed fetch, a `ScrapeCompany` whose store lookups answer
truthfully returns (it does not panic) and leaves a store in which each content hash still
belongs to at most one article. The writes may fail or succeed. -/
theorem C2_uniqueness_preserved (env : CompanyEnv) (company : FirestoreCompany) (w : World)
    (hu : UniqueHashes w.articles) (henv : LookupsTruthful env.item) :
    ∃ r w1, ScrapeCompany env company w = some (r, w1) ∧ UniqueHashes w1.articles := by
  by_cases hurl : company.RSSURL = ""
  · exact ⟨(0, some ("no RSS feed URL for company " ++ company.Name)), w,
      by simp [ScrapeCompany, hurl], hu⟩
  · cases hfeed : env.feed with
    | error e =>
      refine ⟨(0, some ("failed to parse RSS feed: " ++ e)), cycleStart company w, ?_, hu⟩
      have hb : (company.RSSURL == "") = false := by simpa using hurl
      simp only [ScrapeCompany, hb, hfeed]
      rfl
    | ok items =>
      obtain ⟨st, hst, hu1⟩ := scrapeItems_unique env.item company (fun i => (henv i).1) items 0
        ⟨cycleStart company w, 0, 0⟩ hu
      exact ⟨_, _, ScrapeCompany_of_items hurl hfeed hst, hu1⟩

/-- C2, at a store holding one article into which a feed with an in-feed duplicate and an
already held item is scraped. -/
theorem C2_uniqueness_preserved_witness :
    UniqueHashes heldWorld.articles ∧
    ∃ r w1,
      ScrapeCompany ⟨Except.ok [itemB, itemA, itemB], fun _ => calm⟩ exampleCompany heldWorld =
        some (r, w1) ∧
      UniqueHashes w1.articles :=
  ⟨by simp [UniqueHashes, heldWorld],
   C2_uniqueness_preserved ⟨Except.ok [itemB, itemA, itemB], fun _ => calm⟩ exampleCompany
    heldWorld (by simp [UniqueHashes, heldWorld]) (fun _ => ⟨rfl, rfl⟩)⟩

/-- C3: the content hash computed in `ScrapeCompany` depends on the item's link and title only:
two items with the same link and the same title have equal hashes, whatever their description,
content or published timestamp. -/
theorem C3_fingerprint_determinism (a b : Item) (hlink : a.Link = b.Link)
    (htitle : a.Title = b.Title) : contentHash a = contentHash b := by
  unfold contentHash
  rw [hlink, htitle]

/-- C3, at two items that share link and title and differ in description, content and
timestamp. -/
theorem C3_fingerprint_determinism_witness :
    (itemA.Description ≠ itemA2.Description ∧ itemA.Content ≠ itemA2.Content ∧
      itemA.PublishedParsed ≠ itemA2.PublishedParsed) ∧
    contentHash itemA = contentHash itemA2 :=
  ⟨by decide, C3_fingerprint_determinism itemA itemA2 rfl rfl⟩

/-- C4 (as stated, refuted): a feed of two items with identical link and title and different
descriptions, scraped into an empty store. When the writes fail, `ScrapeCompany` reports 0 new
articles and stores none; when both lookups fail and the writes succeed, it reports 2 new
articles (the second write replaces the first document). -/
theorem C4_failed_writes_counterexample :
    (itemA.Link = itemA2.Link ∧ itemA.Title = itemA2.Title ∧
      itemA.Description ≠ itemA2.Description ∧
      holdsHash emptyWorld.articles (contentHash itemA) = false) ∧
    (ScrapeCompany ⟨Except.ok [itemA, itemA2], fun _ => writesFail⟩ exampleCompany
        emptyWorld).map (fun r => (r.1, r.2.articles)) = some ((0, none), []) ∧
    (ScrapeCompany ⟨Except.ok [itemA, itemA2], fun _ => lookupsFail⟩ exampleCompany
        emptyWorld).map (fun r => (r.1, r.2.articles.length)) = some ((2, none), 1) := by
  decide

theorem filter_hash_eq_nil {docs : List (String × FirestoreArticle)} {h : String}
    (hh : holdsHash docs h = false) : docs.filter (fun d => d.2.ContentHash == h) = [] := by
  rw [List.filter_eq_nil_iff]
  intro d hd hdh
  have := holdsHash_of_mem hd (by simpa using hdh)
  rw [hh] at this
  exact absurd this (by decide)

/-- C4 (amended): for every feed of two items with identical link and title (whatever their
descriptions), scraped into a store that does not hold their fingerprint in a cycle whose
existence checks answer truthfully and whose writes succeed, `ScrapeCompany` makes one write,
of the first item's article under its derived id, after which exactly one article of the store
has the fingerprint, and returns 1; a subsequent `ScrapeCompany` with the same feed on the
resulting store, with truthful existence checks, returns 0 and leaves the store as it is. -/
theorem C4_in_feed_duplicates (a b : Item) (hlink : a.Link = b.Link)
    (htitle : a.Title = b.Title) (company : FirestoreCompany) (env1 env2 : CompanyEnv)
    (w : World) (hurl : company.RSSURL ≠ "")
    (hfeed1 : env1.feed = Except.ok [a, b]) (hfeed2 : env2.feed = Except.ok [a, b])
    (henv1 : ChecksAndWritesSucceed env1.item) (henv2 : ChecksTruthful env2.item)
    (hfresh : holdsHash w.articles (contentHash a) = false) :
    ∃ w1 w2,
      ScrapeCompany env1 company w = some ((1, none), w1) ∧
      w1.articles =
        setDoc (articleID company a) (articleOf (env1.item 0).now company a) w.articles ∧
      (w1.articles.filter (fun d => d.2.ContentHash == contentHash a)).length = 1 ∧
      ScrapeCompany env2 company w1 = some ((0, none), w2) ∧
      w2.articles = w1.articles := by
  have hab : contentHash b = contentHash a := by
    unfold contentHash
    rw [hlink, htitle]
  obtain ⟨st1, evs1, h1, -, -, -, -, hcase⟩ :=
    scrapeItem_cases (env1.item 0) company a ⟨cycleStart company w, 0, 0⟩
  have hfresh0 : holdsHash (cycleStart company w).articles (contentHash a) = false := hfresh
  rcases hcase with ⟨-, hh, -⟩ | ⟨-, -, -, hn, hd, ha⟩ | ⟨hnc, hfail, -⟩
  · rw [hfresh0] at hh
    exact absurd hh (by decide)
  · have hart : st1.world.articles =
        setDoc (articleID company a) (articleOf (env1.item 0).now company a) w.articles := ha
    have hheld1 : holdsHash st1.world.articles (contentHash a) = true := by
      rw [hart]
      exact holdsHash_of_mem (List.mem_cons_self _ _) rfl
    obtain ⟨st2, h2, hn2, hd2, ha2⟩ :=
      scrapeItems_all_held env1.item company (fun i => (henv1 i).1) [b] 1 st1 (by
        intro it hit
        rw [List.mem_singleton] at hit
        rw [hit, hab]
        exact hheld1)
    have hloop1 : scrapeItems env1.item company [a, b] 0 ⟨cycleStart company w, 0, 0⟩ =
        some st2 := by
      simp only [scrapeItems, h1]
      exact h2
    obtain ⟨st3, h3, hn3, -, ha3⟩ :=
      scrapeItems_all_held env2.item company henv2 [a, b] 0 ⟨cycleStart company (st2.world.emit
        (cycleSummary company [a, b].length st2.newArticleCount st2.duplicateCount)), 0, 0⟩ (by
        intro it hit
        have hit2 : contentHash it = contentHash a := by
          rcases List.mem_cons.mp hit with rfl | hit
          · rfl
          · rw [List.mem_singleton] at hit
            rw [hit, hab]
        rw [hit2]
        show holdsHash st2.world.articles (contentHash a) = true
        rw [ha2]
        exact hheld1)
    have hr1 := ScrapeCompany_of_items hurl hfeed1 hloop1
    have hr2 := ScrapeCompany_of_items hurl hfeed2 h3
    have hnew : st2.newArticleCount = 1 := by rw [hn2, hn]
    have hn3z : st3.newArticleCount = 0 := hn3
    rw [hn3z] at hr2
    rw [hnew] at hr1 hr2
    refine ⟨_, _, hr1, ?_, ?_, hr2, ?_⟩
    · show st2.world.articles = _
      rw [ha2, hart]
    · show (st2.world.articles.filter _).length = 1
      rw [ha2, hart, setDoc, List.filter_cons_of_pos (by simp [articleOf]),
        List.filter_filter, List.length_cons]
      have hnil : w.articles.filter (fun d => d.2.ContentHash == contentHash a) = [] :=
        filter_hash_eq_nil hfresh
      have hsub : (w.articles.filter (fun d =>
          (d.2.ContentHash == contentHash a) && (d.1 != articleID company a))) = [] := by
        rw [List.filter_eq_nil_iff] at hnil ⊢
        intro d hd hp
        simp only [Bool.and_eq_true] at hp
        exact hnil d hd hp.1
      rw [hsub]
      rfl
    · show st3.world.articles = _
      rw [ha3]
      rfl
  · exfalso
    rcases hfail with ⟨-, hh⟩ | hs
    · exact hnc ⟨(henv1 0).1, hh⟩
    · exact hs (henv1 0).2

/-- C4 (amended), at the feed of `itemA` and `itemA2` scraped twice into an empty store. -/
theorem C4_in_feed_duplicates_witness :
    (itemA.Description ≠ itemA2.Description ∧
      holdsHash emptyWorld.articles (contentHash itemA) = false) ∧
    ∃ w1 w2,
      ScrapeCompany ⟨Except.ok [itemA, itemA2], fun _ => calm⟩ exampleCompany emptyWorld =
        some ((1, none), w1) ∧
      w1.articles =
        setDoc (articleID exampleCompany itemA) (articleOf calm.now exampleCompany itemA)
          emptyWorld.articles ∧
      (w1.articles.filter (fun d => d.2.ContentHash == contentHash itemA)).length = 1 ∧
      ScrapeCompany ⟨Except.ok [itemA, itemA2], fun _ => calm⟩ exampleCompany w1 =
        some ((0, none), w2) ∧
      w2.articles = w1.articles :=
  ⟨⟨by decide, rfl⟩,
   C4_in_feed_duplicates itemA itemA2 rfl rfl exampleCompany
    ⟨Except.ok [itemA, itemA2], fun _ => calm⟩ ⟨Except.ok [itemA, itemA2], fun _ => calm⟩
    emptyWorld (by decide) rfl rfl (fun _ => ⟨rfl, rfl⟩) (fun _ => rfl) rfl⟩

/-- C5 (the code at the failing input): the existence query for `itemA` fails on an empty
store. `CheckArticleExists` answers `(false, nil)`, not an error, and `ScrapeCompany` does not
skip the item: it writes the article and counts it as new. -/
theorem C5_lookup_failure_answered_false :
    (CheckArticleExists checkFails.checkFault (contentHash itemA) emptyWorld).1 =
      (false, none) ∧
    (ScrapeCompany ⟨Except.ok [itemA], fun _ => checkFails⟩ exampleCompany emptyWorld).map
        (fun r => (r.1, r.2.articles, r.2.trace.getLast?)) =
      some ((1, none),
        [(articleID exampleCompany itemA, articleOf 1000 exampleCompany itemA)],
        some (cycleSummary exampleCompany 1 1 0)) := by
  decide

/-! ## The sweep -/

theorem fetches_append (a b : List Event) : fetches (a ++ b) = fetches a ++ fetches b := by
  simp [fetches, List.filterMap_append]

theorem fetches_itemEvents {evs : List Event} (h : ∀ e ∈ evs, itemEvent e = true) :
    fetches evs = [] := by
  unfold fetches
  rw [List.filterMap_eq_nil_iff]
  intro e he
  have := h e he
  cases e <;> simp_all [itemEvent]

theorem articleWriteOnly_of_itemEvent {e : Event} (h : itemEvent e = true) :
    articleWriteOnly e = true := by
  cases e <;> simp_all [itemEvent, articleWriteOnly]

/-- A cycle never panics. It fetches the source's feed once if the source has a feed URL and
not at all otherwise, writes to no collection but `articles`, and leaves the `companies` and
run documents alone. -/
theorem ScrapeCompany_total (env : CompanyEnv) (company : FirestoreCompany) (w : World) :
    ∃ r w1 evs, ScrapeCompany env company w = some (r, w1) ∧
      w1.trace = w.trace ++ evs ∧
      fetches evs = (if company.RSSURL == "" then [] else [company.RSSURL]) ∧
      (∀ e ∈ evs, articleWriteOnly e = true) ∧
      w1.runs = w.runs ∧ w1.companies = w.companies := by
  cases hb : (company.RSSURL == "") with
  | true =>
    exact ⟨(0, some ("no RSS feed URL for company " ++ company.Name)), w, [],
      by simp [ScrapeCompany, hb], by simp, by simp [fetches], by simp, rfl, rfl⟩
  | false =>
    have hurl : company.RSSURL ≠ "" := by simpa using hb
    cases hfeed : env.feed with
    | error e =>
      refine ⟨(0, some ("failed to parse RSS feed: " ++ e)), cycleStart company w,
        [Event.log Level.info "Scraping RSS feed"
          [("company", Value.str company.Name), ("url", Value.str company.RSSURL)],
         Event.parseURL company.RSSURL], ?_, ?_, ?_, ?_, rfl, rfl⟩
      · simp only [ScrapeCompany, hb, hfeed]
        rfl
      · simp [cycleStart, World.emit]
      · simp [fetches]
      · simp [articleWriteOnly]
    | ok items =>
      obtain ⟨st, ievs, hst, htr, hev, hco, hru⟩ :=
        scrapeItems_total env.item company items 0 ⟨cycleStart company w, 0, 0⟩
      refine ⟨_, _, [Event.log Level.info "Scraping RSS feed"
          [("company", Value.str company.Name), ("url", Value.str company.RSSURL)],
         Event.parseURL company.RSSURL] ++ ievs ++
         [cycleSummary company items.length st.newArticleCount st.duplicateCount],
        ScrapeCompany_of_items hurl hfeed hst, ?_, ?_, ?_, hru, hco⟩
      · simp only [World.emit, htr]
        simp [cycleStart, World.emit]
      · rw [fetches_append, fetches_append, fetches_itemEvents hev]
        simp [fetches, cycleSummary]
      · intro e he
        simp only [List.mem_append, List.mem_cons, List.mem_singleton, List.not_mem_nil,
          or_false] at he
        rcases he with ((rfl | rfl) | he) | rfl
        · rfl
        · rfl
        · exact articleWriteOnly_of_itemEvent (hev e he)
        · rfl

/-- Decoding the enumerated documents only logs. -/
theorem collectCompanies_trace :
    ∀ (docs : List CompanyDoc) (w : World),
      ∃ evs, (collectCompanies docs w).2.trace = w.trace ++ evs ∧ fetches evs = [] ∧
        (∀ e ∈ evs, articleWriteOnly e = true) ∧
        (collectCompanies docs w).2.runs = w.runs := by
  intro docs
  induction docs with
  | nil => exact fun w => ⟨[], by simp [collectCompanies], rfl, by simp, rfl⟩
  | cons d rest ih =>
    intro w
    cases hd : d.data with
    | error e =>
      obtain ⟨evs, htr, hf, hev, hru⟩ := ih (w.emit (Event.log Level.warn
        "Failed to parse company document"
        [("company_id", Value.str d.refID), ("error", Value.str e)]))
      refine ⟨Event.log Level.warn "Failed to parse company document"
        [("company_id", Value.str d.refID), ("error", Value.str e)] :: evs, ?_, ?_, ?_, ?_⟩
      · simp only [collectCompanies, hd, htr]
        simp [World.emit]
      · have : fetches (Event.log Level.warn "Failed to parse company document"
            [("company_id", Value.str d.refID), ("error", Value.str e)] :: evs) = fetches evs := by
          simp [fetches]
        rw [this, hf]
      · intro ev hmem
        rcases List.mem_cons.mp hmem with rfl | hmem
        · rfl
        · exact hev ev hmem
      · simp only [collectCompanies, hd, hru]
        rfl
    | ok c =>
      obtain ⟨evs, htr, hf, hev, hru⟩ := ih w
      exact ⟨evs, by simp only [collectCompanies, hd, htr], hf, hev,
        by simp only [collectCompanies, hd, hru]⟩

/-- The loop over the sources never panics and works through the whole list: its counters are
the number of failed cycles and the sum of the new counts of the others, it fetches the feed of
every source that has a feed URL, in order, and it writes to no collection but `articles`. -/
theorem scrapeCompanies_total (env : Nat → CompanyEnv) :
    ∀ (companies : List FirestoreCompany) (i : Nat) (st : SweepState),
      ∃ st1 evs, scrapeCompanies env companies i st = some st1 ∧
        st1.world.trace = st.world.trace ++ evs ∧
        fetches evs =
          (companies.filter (fun c => c.RSSURL != "")).map (fun c => c.RSSURL) ∧
        (∀ e ∈ evs, articleWriteOnly e = true) ∧
        st1.world.runs = st.world.runs ∧
        (cycleResults env companies i st.world).length = companies.length ∧
        st1.totalErrors = st.totalErrors + errorCount (cycleResults env companies i st.world) ∧
        st1.totalNewArticles =
          st.totalNewArticles + newSum (cycleResults env companies i st.world) := by
  intro companies
  induction companies with
  | nil =>
    exact fun i st => ⟨st, [], rfl, by simp, by simp [fetches], by simp, rfl, rfl,
      by simp [cycleResults, errorCount], by simp [cycleResults, newSum]⟩
  | cons c rest ih =>
    intro i st
    obtain ⟨r, w1, evs1, hr, htr1, hf1, hev1, hru1, -⟩ := ScrapeCompany_total (env i) c st.world
    obtain ⟨n, err⟩ := r
    have hfilter : ((c :: rest).filter (fun c => c.RSSURL != "")).map (fun c => c.RSSURL) =
        (if c.RSSURL == "" then [] else [c.RSSURL]) ++
          (rest.filter (fun c => c.RSSURL != "")).map (fun c => c.RSSURL) := by
      cases hb : (c.RSSURL == "") <;> simp [List.filter_cons, bne, hb]
    cases err with
    | some e =>
      obtain ⟨st2, evs2, h2, htr2, hf2, hev2, hru2, hlen2, herr2, hnew2⟩ := ih (i + 1)
        { st with
          world := w1.emit (Event.log Level.error "Failed to scrape company"
            [("company", Value.str c.Name), ("error", Value.str e)])
          totalErrors := st.totalErrors + 1 }
      refine ⟨st2, evs1 ++ Event.log Level.error "Failed to scrape company"
        [("company", Value.str c.Name), ("error", Value.str e)] :: evs2, ?_, ?_, ?_, ?_, ?_,
        ?_, ?_, ?_⟩
      · simp only [scrapeCompanies, hr]
        exact h2
      · rw [htr2]
        simp [World.emit, htr1]
      · rw [fetches_append, hf1, hfilter]
        have : fetches (Event.log Level.error "Failed to scrape company"
            [("company", Value.str c.Name), ("error", Value.str e)] :: evs2) = fetches evs2 := by
          simp [fetches]
        rw [this, hf2]
      · intro ev hmem
        rcases List.mem_append.mp hmem with hmem | hmem
        · exact hev1 ev hmem
        · rcases List.mem_cons.mp hmem with rfl | hmem
          · rfl
          · exact hev2 ev hmem
      · rw [hru2]
        exact hru1
      · simp only [cycleResults, hr, afterCycle, List.length_cons]
        exact congrArg (· + 1) hlen2
      · rw [herr2]
        simp only [cycleResults, hr, afterCycle, errorCount, List.filter_cons, Option.isSome_some,
          if_true, List.length_cons]
        omega
      · rw [hnew2]
        simp [cycleResults, hr, afterCycle, newSum, List.filter_cons]
    | none =>
      obtain ⟨st2, evs2, h2, htr2, hf2, hev2, hru2, hlen2, herr2, hnew2⟩ := ih (i + 1)
        { st with
          world := w1.emit (Event.sleep 2)
          totalNewArticles := st.totalNewArticles + n }
      refine ⟨st2, evs1 ++ Event.sleep 2 :: evs2, ?_, ?_, ?_, ?_, ?_, ?_, ?_, ?_⟩
      · simp only [scrapeCompanies, hr]
        exact h2
      · rw [htr2]
        simp [World.emit, htr1]
      · rw [fetches_append, hf1, hfilter]
        have : fetches (Event.sleep 2 :: evs2) = fetches evs2 := by
          simp [fetches]
        rw [this, hf2]
      · intro ev hmem
        rcases List.mem_append.mp hmem with hmem | hmem
        · exact hev1 ev hmem
        · rcases List.mem_cons.mp hmem with rfl | hmem
          · rfl
          · exact hev2 ev hmem
      · rw [hru2]
        exact hru1
      · simp only [cycleResults, hr, afterCycle, List.length_cons]
        exact congrArg (· + 1) hlen2
      · rw [herr2]
        simp [cycleResults, hr, afterCycle, errorCount, List.filter_cons]
      · rw [hnew2]
        simp only [cycleResults, hr, afterCycle, newSum, List.filter_cons, Option.isNone_none,
          if_true, List.map_cons, List.sum_cons]
        omega

theorem ScrapeAllCompanies_eq (env : SweepEnv) (w : World) :
    ScrapeAllCompanies env w =
      match scrapeCompanies env.company (sweepSources env w) 0 ⟨sweepStart env w, 0, 0⟩ with
      | none => none
      | some st => some (none, st.world.emit
          (sweepSummary (sweepSources env w).length st.totalNewArticles st.totalErrors)) :=
  rfl

/-- A sweep never panics and returns no error; its trace grows by the enumeration query, the
events of its cycles and its log entries. -/
theorem ScrapeAllCompanies_total (env : SweepEnv) (w : World) :
    ∃ (st : SweepState) (evs : List Event), ScrapeAllCompanies env w = some (none, st.world.emit
        (sweepSummary (sweepSources env w).length st.totalNewArticles st.totalErrors)) ∧
      st.world.trace = w.trace ++ evs ∧
      fetches evs =
        ((sweepSources env w).filter (fun c => c.RSSURL != "")).map (fun c => c.RSSURL) ∧
      (∀ e ∈ evs, articleWriteOnly e = true) ∧
      st.world.runs = w.runs ∧
      st.totalErrors =
        errorCount (cycleResults env.company (sweepSources env w) 0 (sweepStart env w)) ∧
      st.totalNewArticles =
        newSum (cycleResults env.company (sweepSources env w) 0 (sweepStart env w)) := by
  obtain ⟨cevs, hctr, hcf, hcev, hcru⟩ :=
    collectCompanies_trace (enumerated env.enumFault w.companies)
      (w.emit (Event.query "companies" "is_active" (Value.bool true)))
  obtain ⟨st, evs, hst, htr, hf, hev, hru, -, herr, hnew⟩ :=
    scrapeCompanies_total env.company (sweepSources env w) 0 ⟨sweepStart env w, 0, 0⟩
  refine ⟨st, Event.query "companies" "is_active" (Value.bool true) :: cevs ++
    [Event.log Level.info "Starting scraping run for all companies"
      [("count", Value.int (sweepSources env w).length)]] ++ evs, ?_, ?_, ?_, ?_, ?_, ?_, ?_⟩
  · rw [ScrapeAllCompanies_eq, hst]
  · rw [htr]
    simp only [World.emit] at hctr
    simp [sweepStart, World.emit, hctr]
  · rw [fetches_append, fetches_append, hf]
    have h1 : fetches (Event.query "companies" "is_active" (Value.bool true) :: cevs) =
        fetches cevs := by
      simp [fetches]
    rw [h1, hcf]
    simp [fetches]
  · intro e he
    simp only [List.mem_append, List.mem_cons, List.mem_singleton, List.not_mem_nil,
      or_false] at he
    rcases he with ((rfl | he) | rfl) | he
    · rfl
    · exact hcev e he
    · rfl
    · exact hev e he
  · rw [hru]
    exact hcru
  · rw [herr]; simp
  · rw [hnew]; simp

/-! ## Claims about the sweep and the accounting -/

/-- C6: for every database and every behaviour of the outside, `ScrapeAllCompanies` works
through the whole list of enumerated sources, whatever fails: there is one `ScrapeCompany`
result per source, the feeds of the sources that have a feed URL are fetched in the order of
the list, and the sweep's final log entry reports the length of the list as sources processed,
the sum of the new counts of the cycles that returned no error as total new articles, and the
number of cycles that returned an error as errors. -/
theorem C6_sweep_totals (env : SweepEnv) (w : World) :
    ∃ w1 evs, ScrapeAllCompanies env w = some (none, w1) ∧
      w1.trace = w.trace ++ evs ∧
      fetches evs =
        ((sweepSources env w).filter (fun c => c.RSSURL != "")).map (fun c => c.RSSURL) ∧
      (cycleResults env.company (sweepSources env w) 0 (sweepStart env w)).length =
        (sweepSources env w).length ∧
      w1.trace.getLast? = some (sweepSummary (sweepSources env w).length
        (newSum (cycleResults env.company (sweepSources env w) 0 (sweepStart env w)))
        (errorCount (cycleResults env.company (sweepSources env w) 0 (sweepStart env w)))) := by
  obtain ⟨st, evs, hst, htr, hf, -, -, herr, hnew⟩ := ScrapeAllCompanies_total env w
  obtain ⟨-, -, -, -, -, -, -, hlen, -, -⟩ :=
    scrapeCompanies_total env.company (sweepSources env w) 0 ⟨sweepStart env w, 0, 0⟩
  refine ⟨_, evs ++ [sweepSummary (sweepSources env w).length st.totalNewArticles
    st.totalErrors], hst, ?_, ?_, hlen, ?_⟩
  · simp [World.emit, htr]
  · rw [fetches_append, hf]
    simp [fetches, sweepSummary]
  · rw [getLast_emit, herr, hnew]

/-- C7 (as stated, refuted): the enumeration of the active sources fails at once, and
`ScrapeAllCompanies` returns no error; it reports a sweep over 0 sources. -/
theorem C7_enumeration_failure_counterexample :
    (ScrapeAllCompanies enumFails sweepWorld).map (fun r => (r.1, r.2.trace.getLast?)) =
      some (none, some (sweepSummary 0 0 0)) := by
  decide

/-- C7 (amended): `ScrapeAllCompanies` never returns an error, and never panics, whatever
fails: the enumeration of the active sources, the fetch of any source, or a store operation
for any item. -/
theorem C7_sweep_returns_no_error (env : SweepEnv) (w : World) :
    ∃ w1, ScrapeAllCompanies env w = some (none, w1) := by
  obtain ⟨st, evs, hst, -⟩ := ScrapeAllCompanies_total env w
  exact ⟨_, hst⟩

/-- C8 (as stated, refuted): a cycle over a feed of one item. On an empty store whose writes
fail, and on a store that holds the item's hash while the existence query fails, the item is
skipped: found is 1, duplicates 0, and the new count is 0, not K - D = 1. -/
theorem C8_failed_save_counterexample :
    (ScrapeCompany ⟨Except.ok [itemA], fun _ => writesFail⟩ exampleCompany emptyWorld).map
        (fun r => (r.1, r.2.trace.getLast?)) =
      some ((0, none), some (cycleSummary exampleCompany 1 0 0)) ∧
    (ScrapeCompany ⟨Except.ok [itemA], fun _ => checkFails⟩ exampleCompany heldWorld).map
        (fun r => (r.1, r.2.trace.getLast?)) =
      some ((0, none), some (cycleSummary exampleCompany 1 0 0)) := by
  decide

/-- C8 (amended): for every source cycle in which `ScrapeCompany` processes a feed of K items,
the existence checks answer truthfully and the writes succeed: the logged found count is K,
and with D the logged duplicate count the new count returned is K - D, and new + D = K. -/
theorem C8_run_accounting (env : CompanyEnv) (company : FirestoreCompany) (items : List Item)
    (w : World) (hurl : company.RSSURL ≠ "") (hfeed : env.feed = Except.ok items)
    (henv : ChecksAndWritesSucceed env.item) :
    ∃ n d w1, ScrapeCompany env company w = some ((n, none), w1) ∧
      w1.trace.getLast? = some (cycleSummary company items.length n d) ∧
      n = items.length - d ∧ n + d = items.length := by
  obtain ⟨st, hst, hcount⟩ :=
    scrapeItems_count env.item company henv items 0 ⟨cycleStart company w, 0, 0⟩
  simp only [Nat.zero_add] at hcount
  exact ⟨st.newArticleCount, st.duplicateCount, _, ScrapeCompany_of_items hurl hfeed hst,
    getLast_emit _ _, by omega, hcount⟩

/-- C8 (amended), at a feed of three items, one of them an in-feed duplicate. -/
theorem C8_run_accounting_witness :
    ∃ n d w1,
      ScrapeCompany ⟨Except.ok [itemA, itemB, itemA2], fun _ => calm⟩ exampleCompany
        emptyWorld = some ((n, none), w1) ∧
      w1.trace.getLast? = some (cycleSummary exampleCompany [itemA, itemB, itemA2].length n d) ∧
      n = [itemA, itemB, itemA2].length - d ∧ n + d = [itemA, itemB, itemA2].length :=
  C8_run_accounting ⟨Except.ok [itemA, itemB, itemA2], fun _ => calm⟩ exampleCompany
    [itemA, itemB, itemA2] emptyWorld (by decide) rfl (fun _ => ⟨rfl, rfl⟩)

/-- C9 (as stated, refuted): a sweep over two sources in which nothing fails creates no Run
record: the run documents stay empty and no write goes to a collection other than
`articles`. -/
theorem C9_no_run_record_counterexample :
    (ScrapeAllCompanies calmSweep sweepWorld).map
        (fun r => (r.1, r.2.runs, r.2.trace.filter (fun e => !articleWriteOnly e),
          r.2.trace.getLast?)) =
      some (none, [], [], some (sweepSummary 2 1 0)) := by
  decide

/-- C9 (amended): `ScrapeAllCompanies` creates and changes no Run record: for every database
and every behaviour of the outside the sweep ends with the run documents as they were, and
every write it makes goes to the `articles` collection; the outcome of a source's cycle is
only logged. -/
theorem C9_sweep_writes_no_run (env : SweepEnv) (w : World) :
    ∃ w1 evs, ScrapeAllCompanies env w = some (none, w1) ∧ w1.runs = w.runs ∧
      w1.trace = w.trace ++ evs ∧ ∀ e ∈ evs, articleWriteOnly e = true := by
  obtain ⟨st, evs, hst, htr, -, hev, hru, -, -⟩ := ScrapeAllCompanies_total env w
  refine ⟨_, evs ++ [sweepSummary (sweepSources env w).length st.totalNewArticles
    st.totalErrors], hst, hru, by simp [World.emit, htr], ?_⟩
  intro e he
  rcases List.mem_append.mp he with he | he
  · exact hev e he
  · rw [List.mem_singleton] at he
    rw [he]
    rfl

/-- C10 (the code at the failing input): the store holds an article with the content hash of
the article to save, and the duplicate query of `saveFirestoreArticle` fails. The save returns
no error and writes the article: the store then holds two articles with that hash. -/
theorem C10_conflict_missed_on_query_failure :
    ((articleOf 1000 exampleCompany itemA).ContentHash ≠ "" ∧
      holdsHash heldWorld.articles (articleOf 1000 exampleCompany itemA).ContentHash = true) ∧
    (saveFirestoreArticle saveQueryFails (articleOf 1000 exampleCompany itemA) heldWorld).1 =
      none ∧
    (saveFirestoreArticle saveQueryFails (articleOf 1000 exampleCompany itemA)
        heldWorld).2.articles =
      [(articleID exampleCompany itemA, articleOf 1000 exampleCompany itemA),
       (articleID otherCompany itemA, articleOf 1 otherCompany itemA)] := by
  decide

/-! ## Claims about duplicates, ids and the digest -/

/-- C11 (the code at the failing input): the store holds the fingerprint of the feed's only
item. When the existence query fails, `ScrapeCompany` does not count the item as a duplicate
(it logs 0 duplicates); when the duplicate query of the save fails as well, it writes the
article again, returns 1 new article, and the store has changed. -/
theorem C11_held_item_not_counted_duplicate :
    holdsHash heldWorld.articles (contentHash itemA) = true ∧
    (ScrapeCompany ⟨Except.ok [itemA], fun _ => checkFails⟩ exampleCompany heldWorld).map
        (fun r => (r.1, r.2.trace.getLast?)) =
      some ((0, none), some (cycleSummary exampleCompany 1 0 0)) ∧
    (ScrapeCompany ⟨Except.ok [itemA], fun _ => lookupsFail⟩ exampleCompany heldWorld).map
        (fun r => (r.1, r.2.trace.getLast?, decide (r.2.articles = heldWorld.articles),
          r.2.articles.length)) =
      some ((1, none), some (cycleSummary exampleCompany 1 1 0), false, 2) := by
  decide

theorem derivedFor_articleOf (now : Time) (company : FirestoreCompany) (item : Item) :
    DerivedFor company (articleID company item, articleOf now company item) :=
  ⟨rfl, rfl, rfl, rfl⟩

/-- Every document the item loop leaves in the store was there before or has the derived
shape. -/
theorem scrapeItems_derived (env : Nat → ItemEnv) (company : FirestoreCompany)
    (docs : List (String × FirestoreArticle)) :
    ∀ (items : List Item) (i : Nat) (st : ScrapeState),
      (∀ d ∈ st.world.articles, d ∈ docs ∨ DerivedFor company d) →
      ∃ st1, scrapeItems env company items i st = some st1 ∧
        ∀ d ∈ st1.world.articles, d ∈ docs ∨ DerivedFor company d := by
  intro items
  induction items with
  | nil => exact fun i st h => ⟨st, rfl, h⟩
  | cons item rest ih =>
    intro i st h
    obtain ⟨st1, evs1, h1, -, -, -, -, hcase⟩ := scrapeItem_cases (env i) company item st
    have h1d : ∀ d ∈ st1.world.articles, d ∈ docs ∨ DerivedFor company d := by
      rcases hcase with ⟨-, -, -, -, ha⟩ | ⟨-, -, -, -, -, ha⟩ | ⟨-, -, -, -, ha⟩
      · rw [ha]; exact h
      · rw [ha]
        intro d hd
        simp only [setDoc, List.mem_cons, List.mem_filter] at hd
        rcases hd with rfl | ⟨hd, -⟩
        · exact Or.inr (derivedFor_articleOf _ company item)
        · exact h d hd
      · rw [ha]; exact h
    obtain ⟨st2, h2, h2d⟩ := ih (i + 1) st1 h1d
    exact ⟨st2, by simp only [scrapeItems, h1, h2], h2d⟩

/-- C12: for every store, every company and every behaviour of the outside, each document of
the store after `ScrapeCompany` that was not in the store before is an article of the company
whose id is `article_`, the company's id, `_` and the first eight characters of its content
hash, that is stored under that id as its document key, and whose content hash is the
fingerprint of its own URL and title. -/
theorem C12_derived_article_id (env : CompanyEnv) (company : FirestoreCompany) (w : World) :
    ∃ r w1, ScrapeCompany env company w = some (r, w1) ∧
      ∀ d ∈ w1.articles, d ∈ w.articles ∨ DerivedFor company d := by
  by_cases hurl : company.RSSURL = ""
  · exact ⟨(0, some ("no RSS feed URL for company " ++ company.Name)), w,
      by simp [ScrapeCompany, hurl], fun d hd => Or.inl hd⟩
  · cases hfeed : env.feed with
    | error e =>
      refine ⟨(0, some ("failed to parse RSS feed: " ++ e)), cycleStart company w, ?_,
        fun d hd => Or.inl hd⟩
      have hb : (company.RSSURL == "") = false := by simpa using hurl
      simp only [ScrapeCompany, hb, hfeed]
      rfl
    | ok items =>
      obtain ⟨st, hst, hd⟩ := scrapeItems_derived env.item company w.articles items 0
        ⟨cycleStart company w, 0, 0⟩ (fun d hd => Or.inl hd)
      exact ⟨_, _, ScrapeCompany_of_items hurl hfeed hst, hd⟩

theorem stringBytes_append (a b : String) :
    stringBytes (a ++ b) = stringBytes a ++ stringBytes b := by
  simp [stringBytes, String.data_append, List.flatMap_append]

theorem beBytes_lt (k n : Nat) : ∀ b ∈ beBytes k n, b < 256 := by
  induction k with
  | zero => simp [beBytes]
  | succ k ih =>
    intro b hb
    simp only [beBytes, List.mem_cons] at hb
    rcases hb with rfl | hb
    · exact Nat.mod_lt _ (by decide)
    · exact ih b hb

theorem Sum256_lt (msg : List Nat) : ∀ b ∈ Sum256 msg, b < 256 := by
  intro b hb
  simp only [Sum256, List.mem_append] at hb
  rcases hb with ((((((hb | hb) | hb) | hb) | hb) | hb) | hb) | hb <;>
    exact beBytes_lt _ _ b hb

theorem hexDigit_mem (n : Nat) : hexDigit n ∈ "0123456789abcdef".data := by
  unfold hexDigit
  rw [List.getD_eq_getElem?_getD]
  cases hn : "0123456789abcdef".data[n]? with
  | none => decide
  | some c => exact List.getElem?_mem hn

theorem sprintfHex_data_length (bs : List Nat) : (sprintfHex bs).data.length = 2 * bs.length := by
  unfold sprintfHex
  induction bs with
  | nil => rfl
  | cons b bs ih =>
    simp only [List.flatMap_cons, List.cons_append, List.nil_append, List.length_cons] at ih ⊢
    omega

theorem sprintfHex_mem (bs : List Nat) :
    ∀ c ∈ (sprintfHex bs).data, c ∈ "0123456789abcdef".data := by
  intro c hc
  simp only [sprintfHex, List.mem_flatMap, List.mem_cons, List.mem_singleton,
    List.not_mem_nil, or_false] at hc
  obtain ⟨b, -, rfl | rfl⟩ := hc
  · exact hexDigit_mem _
  · exact hexDigit_mem _

/-- The embedded SHA-256 on the test vectors of the standard: the empty message, `abc`, and
the two-block message of 56 bytes. -/
theorem Sum256_test_vectors :
    sprintfHex (Sum256 (stringBytes "")) =
      "e3b0c44298fc1c149afbf4c8996fb92427ae41e4649b934ca495991b7852b855" ∧
    sprintfHex (Sum256 (stringBytes "abc")) =
      "ba7816bf8f01cfea414140de5dae2223b00361a396177a9cb410ff61f20015ad" ∧
    sprintfHex (Sum256 (stringBytes
        "abcdbcdecdefdefgefghfghighijhijkijkljklmklmnlmnomnopnopq")) =
      "248d6a61d20638b8e5c026930c3e6039a33ce45964ff2167f6ecedd419db06c1" := by
  decide

/-- C13: for every link and title, empty ones included, the content hash is the hexadecimal
print, with the digits `0-9a-f`, of the SHA-256 digest of the link's bytes followed by the
title's bytes; the digest has 32 bytes, so the hash has exactly 64 characters (and 64 bytes),
each of them one of `0-9a-f`, and `contentHash[:8]` is in range: it is the string of the first
eight characters. -/
theorem C13_fixed_size_hex_digest (item : Item) :
    contentHash item =
      sprintfHex (Sum256 (stringBytes item.Link ++ stringBytes item.Title)) ∧
    (Sum256 (stringBytes item.Link ++ stringBytes item.Title)).length = 32 ∧
    (∀ b ∈ Sum256 (stringBytes item.Link ++ stringBytes item.Title), b < 256) ∧
    (contentHash item).length = 64 ∧
    (contentHash item).utf8ByteSize = 64 ∧
    (∀ c ∈ (contentHash item).data, c ∈ "0123456789abcdef".data) ∧
    slice8 (contentHash item) = some (hashHead item) ∧
    (hashHead item).length = 8 := by
  have hlen : (contentHash item).data.length = 64 := by
    unfold contentHash
    rw [sprintfHex_data_length, Sum256_length]
  refine ⟨?_, Sum256_length _, Sum256_lt _, hlen, contentHash_utf8ByteSize item,
    sprintfHex_mem _, slice8_contentHash item, ?_⟩
  · unfold contentHash
    rw [stringBytes_append]
  · show ((contentHash item).data.take 8).length = 8
    rw [List.length_take, hlen]
    rfl

/-- C14: for every company whose feed URL is empty, `ScrapeCompany` returns 0 and an error
and leaves the world exactly as it was: the trace is unchanged, so no feed was fetched and the
store was neither read nor written. -/
theorem C14_no_feed_configured (env : CompanyEnv) (company : FirestoreCompany) (w : World)
    (hurl : company.RSSURL = "") :
    ScrapeCompany env company w =
      some ((0, some ("no RSS feed URL for company " ++ company.Name)), w) := by
  simp [ScrapeCompany, hurl]

/-- C14, at a source without feed URL in a sweep environment whose fetch would succeed. -/
theorem C14_no_feed_configured_witness :
    noFeedCompany.RSSURL = "" ∧
    ScrapeCompany ⟨Except.ok [itemA], fun _ => calm⟩ noFeedCompany heldWorld =
      some ((0, some ("no RSS feed URL for company " ++ noFeedCompany.Name)), heldWorld) :=
  ⟨rfl, C14_no_feed_configured ⟨Except.ok [itemA], fun _ => calm⟩ noFeedCompany heldWorld rfl⟩

/-! ## Claims about the word count, the pacing and the accounting under failures -/

/-- C16 (the code at the failing input): the article `ScrapeCompany` creates for an item with
the description `first description`, a text of two words, is stored with word count 17, the
number of bytes of the text. -/
theorem C16_word_count_is_byte_length :
    (ScrapeCompany ⟨Except.ok [itemA], fun _ => calm⟩ exampleCompany emptyWorld).map
        (fun r => r.2.articles.map (fun d => (d.2.Content, d.2.WordCount))) =
      some [("first description", 17)] ∧
    countWords "first description" = 2 ∧
    "first description".utf8ByteSize = 17 := by
  decide

/-- C17 (the code at the failing input): a sweep over two sources in which the fetch of the
first source fails. The feed of the second source is fetched with no sleep in between; the
only sleep of the sweep follows the second cycle. -/
theorem C17_no_delay_after_failed_cycle :
    (ScrapeAllCompanies firstFetchFails sweepWorld).map (fun r => (r.1, pacing r.2.trace)) =
      some (none, [Event.parseURL "https://x.test/feed", Event.parseURL "https://y.test/rss",
        Event.sleep 2]) := by
  decide

/-- The outcome of an item, by the case of the loop iteration. -/
theorem itemOutcome_cases (env : ItemEnv) (company : FirestoreCompany) (item : Item)
    (w : World) :
    (env.checkFault = none ∧ holdsHash w.articles (contentHash item) = true →
      itemOutcome env company item w = ItemOutcome.duplicate) ∧
    (¬ (env.checkFault = none ∧ holdsHash w.articles (contentHash item) = true) →
      ¬ (env.saveQueryFault = none ∧ holdsHash w.articles (contentHash item) = true) →
      env.setFault = none → itemOutcome env company item w = ItemOutcome.saved) ∧
    (¬ (env.checkFault = none ∧ holdsHash w.articles (contentHash item) = true) →
      ((env.saveQueryFault = none ∧ holdsHash w.articles (contentHash item) = true) ∨
        env.setFault ≠ none) →
      itemOutcome env company item w = ItemOutcome.saveFailed) := by
  have hart : (articleOf env.now company item).ContentHash = contentHash item := rfl
  obtain ⟨evs, -, hcase⟩ := saveFirestoreArticle_cases env (articleOf env.now company item)
    (w.emit (Event.query "articles" "content_hash" (Value.str (contentHash item))))
    (by rw [hart]; exact contentHash_ne_empty item)
  rw [hart] at hcase
  have hsame : (w.emit (Event.query "articles" "content_hash"
      (Value.str (contentHash item)))).articles = w.articles := rfl
  rw [hsame] at hcase
  unfold itemOutcome
  simp only [CheckArticleExists_eq]
  refine ⟨?_, ?_, ?_⟩
  · rintro ⟨hc, hh⟩
    simp [hc, hh]
  · intro hnc hnq hs
    have hb : (env.checkFault.isNone && holdsHash w.articles (contentHash item)) = false := by
      cases hc : env.checkFault <;> cases hh : holdsHash w.articles (contentHash item) <;>
        simp_all
    rcases hcase with ⟨hq, hh, -⟩ | ⟨-, e, he, -⟩ | ⟨-, -, hsave⟩
    · exact absurd ⟨hq, hh⟩ hnq
    · rw [hs] at he
      exact absurd he (by simp)
    · simp only [hb, hsave]
  · intro hnc hfail
    have hb : (env.checkFault.isNone && holdsHash w.articles (contentHash item)) = false := by
      cases hc : env.checkFault <;> cases hh : holdsHash w.articles (contentHash item) <;>
        simp_all
    rcases hcase with ⟨-, -, msg, hsave⟩ | ⟨-, e, -, hsave⟩ | ⟨hnq, hs, -⟩
    · simp only [hb, hsave]
    · simp only [hb, hsave]
    · rcases hfail with hq | hns
      · exact absurd hq hnq
      · exact absurd hs hns

/-- The counters of the item loop count the saved items and the items found to exist; the
other items are those whose existence check or save returned an error. -/
theorem scrapeItems_outcomes (env : Nat → ItemEnv) (company : FirestoreCompany) :
    ∀ (items : List Item) (i : Nat) (st : ScrapeState),
      ∃ st1, scrapeItems env company items i st = some st1 ∧
        st1.newArticleCount =
          st.newArticleCount + (itemOutcomes env company items i st).count ItemOutcome.saved ∧
        st1.duplicateCount =
          st.duplicateCount +
            (itemOutcomes env company items i st).count ItemOutcome.duplicate ∧
        (itemOutcomes env company items i st).count ItemOutcome.saved +
            (itemOutcomes env company items i st).count ItemOutcome.duplicate +
            ((itemOutcomes env company items i st).count ItemOutcome.checkFailed +
              (itemOutcomes env company items i st).count ItemOutcome.saveFailed) =
          items.length := by
  intro items
  induction items with
  | nil => exact fun i st => ⟨st, rfl, by simp [itemOutcomes], by simp [itemOutcomes],
      by simp [itemOutcomes]⟩
  | cons item rest ih =>
    intro i st
    obtain ⟨st1, evs1, h1, -, -, -, -, hcase⟩ := scrapeItem_cases (env i) company item st
    obtain ⟨st2, h2, hn2, hd2, hsum2⟩ := ih (i + 1) st1
    obtain ⟨hodup, hosaved, hofailed⟩ := itemOutcome_cases (env i) company item st.world
    refine ⟨st2, by simp only [scrapeItems, h1, h2], ?_, ?_, ?_⟩ <;>
      rcases hcase with ⟨hc, hh, hn, hd, -⟩ | ⟨hnc, hnq, hs, hn, hd, -⟩ | ⟨hnc, hfail, hn, hd, -⟩
    · simp only [itemOutcomes, h1, hodup ⟨hc, hh⟩, List.count_cons, hn2, hn]
      simp
    · simp only [itemOutcomes, h1, hosaved hnc hnq hs, List.count_cons, hn2, hn]
      simp; omega
    · simp only [itemOutcomes, h1, hofailed hnc hfail, List.count_cons, hn2, hn]
      simp
    · simp only [itemOutcomes, h1, hodup ⟨hc, hh⟩, List.count_cons, hd2, hd]
      simp; omega
    · simp only [itemOutcomes, h1, hosaved hnc hnq hs, List.count_cons, hd2, hd]
      simp
    · simp only [itemOutcomes, h1, hofailed hnc hfail, List.count_cons, hd2, hd]
      simp
    · simp only [itemOutcomes, h1, hodup ⟨hc, hh⟩, List.count_cons, List.length_cons]
      simp; omega
    · simp only [itemOutcomes, h1, hosaved hnc hnq hs, List.count_cons, List.length_cons]
      simp; omega
    · simp only [itemOutcomes, h1, hofailed hnc hfail, List.count_cons, List.length_cons]
      simp; omega

/-- The accounting of a cycle by what the two store calls return, for every store, every
behaviour of the store (lookups and writes may fail) and every fetched feed of K items:
`ScrapeCompany` returns no error (and does not panic); the new count it returns is the number
of items whose save returned no error, the duplicate count it logs is the number of items
found to exist, and these two and the number of items whose existence check or save returned
an error add up to K, so new + duplicates <= K. -/
theorem ScrapeCompany_outcome_accounting (env : CompanyEnv) (company : FirestoreCompany)
    (items : List Item) (w : World) (hurl : company.RSSURL ≠ "")
    (hfeed : env.feed = Except.ok items) :
    ∃ n d w1, ScrapeCompany env company w = some ((n, none), w1) ∧
      w1.trace.getLast? = some (cycleSummary company items.length n d) ∧
      n = (itemOutcomes env.item company items 0 ⟨cycleStart company w, 0, 0⟩).count
        ItemOutcome.saved ∧
      d = (itemOutcomes env.item company items 0 ⟨cycleStart company w, 0, 0⟩).count
        ItemOutcome.duplicate ∧
      n + d +
          ((itemOutcomes env.item company items 0 ⟨cycleStart company w, 0, 0⟩).count
              ItemOutcome.checkFailed +
            (itemOutcomes env.item company items 0 ⟨cycleStart company w, 0, 0⟩).count
              ItemOutcome.saveFailed) = items.length ∧
      n + d ≤ items.length := by
  obtain ⟨st, hst, hn, hd, hsum⟩ :=
    scrapeItems_outcomes env.item company items 0 ⟨cycleStart company w, 0, 0⟩
  simp only [Nat.zero_add] at hn hd
  refine ⟨st.newArticleCount, st.duplicateCount, _, ScrapeCompany_of_items hurl hfeed hst,
    getLast_emit _ _, hn, hd, ?_, ?_⟩
  · rw [hn, hd]; exact hsum
  · rw [hn, hd]; omega

/-- The accounting by what the calls return, at a feed of four items scraped into a store that
holds the hash of the second: the write for the first item fails and so does the existence
query for the second. -/
theorem ScrapeCompany_outcome_accounting_example :
    itemOutcomes mixedFaults exampleCompany [itemB, itemA, itemA2, itemP] 0
        ⟨cycleStart exampleCompany heldWorld, 0, 0⟩ =
      [ItemOutcome.saveFailed, ItemOutcome.saveFailed, ItemOutcome.duplicate,
        ItemOutcome.saved] ∧
    ∃ n d w1,
      ScrapeCompany ⟨Except.ok [itemB, itemA, itemA2, itemP], mixedFaults⟩ exampleCompany
        heldWorld = some ((n, none), w1) ∧
      w1.trace.getLast? =
        some (cycleSummary exampleCompany [itemB, itemA, itemA2, itemP].length n d) ∧
      n = (itemOutcomes mixedFaults exampleCompany [itemB, itemA, itemA2, itemP] 0
        ⟨cycleStart exampleCompany heldWorld, 0, 0⟩).count ItemOutcome.saved ∧
      d = (itemOutcomes mixedFaults exampleCompany [itemB, itemA, itemA2, itemP] 0
        ⟨cycleStart exampleCompany heldWorld, 0, 0⟩).count ItemOutcome.duplicate ∧
      n + d +
          ((itemOutcomes mixedFaults exampleCompany [itemB, itemA, itemA2, itemP] 0
              ⟨cycleStart exampleCompany heldWorld, 0, 0⟩).count ItemOutcome.checkFailed +
            (itemOutcomes mixedFaults exampleCompany [itemB, itemA, itemA2, itemP] 0
              ⟨cycleStart exampleCompany heldWorld, 0, 0⟩).count ItemOutcome.saveFailed) =
        [itemB, itemA, itemA2, itemP].length ∧
      n + d ≤ [itemB, itemA, itemA2, itemP].length :=
  ⟨by decide,
   ScrapeCompany_outcome_accounting ⟨Except.ok [itemB, itemA, itemA2, itemP], mixedFaults⟩
    exampleCompany
    [itemB, itemA, itemA2, itemP] heldWorld (by decide) rfl⟩

/-- C18 (the code at the failing input): the existence query for the only item of the feed
fails, on an empty store, and its save succeeds. `ScrapeCompany` returns 1 new article and
logs 0 duplicates, although the item is one whose existence check failed: with skipped the
number of items whose existence check or save failed, 1 here, new + duplicates + skipped is
2, not K = 1. -/
theorem C18_failed_check_counted_new :
    checkFails.checkFault.isSome = true ∧
    (ScrapeCompany ⟨Except.ok [itemA], fun _ => checkFails⟩ exampleCompany emptyWorld).map
        (fun r => (r.1, r.2.trace.getLast?)) =
      some ((1, none), some (cycleSummary exampleCompany 1 1 0)) ∧
    failedItems (fun _ => checkFails) exampleCompany [itemA] 0
        ⟨cycleStart exampleCompany emptyWorld, 0, 0⟩ = 1 ∧
    1 + 0 + failedItems (fun _ => checkFails) exampleCompany [itemA] 0
        ⟨cycleStart exampleCompany emptyWorld, 0, 0⟩ ≠ [itemA].length := by
  decide

/-! ## Claims about colliding fingerprints -/

theorem setDoc_setDoc (id : String) (a b : FirestoreArticle)
    (docs : List (String × FirestoreArticle)) :
    setDoc id b (setDoc id a docs) = setDoc id b docs := by
  simp [setDoc, List.filter_filter]

theorem articleID_eq {company : FirestoreCompany} {a b : Item} (h : hashHead a = hashHead b) :
    articleID company a = articleID company b := by
  unfold articleID
  rw [h]

/-- C19 (as stated, refuted): two feed items whose content hashes differ and agree in their
first eight characters, scraped into a store that holds neither hash. Into the empty store with
failing writes, `ScrapeCompany` reports 0 new articles and the store gains no document. Into
the store left by a scrape of `itemR1`, whose document has the id the two items share, with
nothing failing, `ScrapeCompany` reports 2 new articles and the store still has one document:
it gains none. -/
theorem C19_id_collision_counterexample :
    (contentHash itemP ≠ contentHash itemQ ∧ hashHead itemP = hashHead itemQ ∧
      (∀ it ∈ [itemP, itemQ], holdsHash emptyWorld.articles (contentHash it) = false) ∧
      (ScrapeCompany ⟨Except.ok [itemP, itemQ], fun _ => writesFail⟩ exampleCompany
          emptyWorld).map (fun r => (r.1, r.2.articles.length)) = some ((0, none), 0)) ∧
    (contentHash itemR2 ≠ contentHash itemR3 ∧ hashHead itemR2 = hashHead itemR3 ∧
      (ScrapeCompany ⟨Except.ok [itemR1], fun _ => calm⟩ exampleCompany emptyWorld).map
          (fun r => (r.2.articles.length, holdsHash r.2.articles (contentHash itemR2),
            holdsHash r.2.articles (contentHash itemR3))) = some (1, false, false) ∧
      ((ScrapeCompany ⟨Except.ok [itemR1], fun _ => calm⟩ exampleCompany emptyWorld).bind
          (fun r => ScrapeCompany ⟨Except.ok [itemR2, itemR3], fun _ => calm⟩ exampleCompany
            r.2)).map (fun r => (r.1, r.2.articles.length)) = some ((2, none), 1)) := by
  refine ⟨⟨by decide, by decide, by decide, by decide⟩, by decide, by decide, by decide,
    by decide⟩

/-- C19 (amended): for every company and every two feed items whose content hashes differ but
agree in their first eight characters, scraped, with both writes succeeding, into a store that
holds neither hash: `ScrapeCompany` returns 2 and logs 2 new articles and 0 duplicates, while
the store changes in one document only, the one under the shared id, which is the second
item's article (the second write replaced the first), so the store gains at most one document,
holds the second item's fingerprint and does not hold the first item's. The lookups may fail
or answer. -/
theorem C19_id_collision_overwrites (company : FirestoreCompany) (a b : Item)
    (env : CompanyEnv) (w : World) (hurl : company.RSSURL ≠ "")
    (hfeed : env.feed = Except.ok [a, b])
    (hne : contentHash a ≠ contentHash b) (hhead : hashHead a = hashHead b)
    (hwrites : ∀ i, (env.item i).setFault = none)
    (hfresha : holdsHash w.articles (contentHash a) = false)
    (hfreshb : holdsHash w.articles (contentHash b) = false) :
    ∃ w1, ScrapeCompany env company w = some ((2, none), w1) ∧
      w1.trace.getLast? = some (cycleSummary company 2 2 0) ∧
      articleID company a = articleID company b ∧
      w1.articles =
        setDoc (articleID company b) (articleOf (env.item 1).now company b) w.articles ∧
      w1.articles.length ≤ w.articles.length + 1 ∧
      holdsHash w1.articles (contentHash a) = false ∧
      holdsHash w1.articles (contentHash b) = true := by
  obtain ⟨st1, evs1, h1, -, -, -, -, hcase1⟩ :=
    scrapeItem_cases (env.item 0) company a ⟨cycleStart company w, 0, 0⟩
  have hfa0 : holdsHash (cycleStart company w).articles (contentHash a) = false := hfresha
  rcases hcase1 with ⟨-, hh, -⟩ | ⟨-, -, -, hn1, hd1, ha1⟩ | ⟨-, hfail, -⟩
  · rw [hfa0] at hh
    exact absurd hh (by decide)
  · have hart1 : st1.world.articles =
        setDoc (articleID company a) (articleOf (env.item 0).now company a) w.articles := ha1
    have hfb1 : holdsHash st1.world.articles (contentHash b) = false := by
      rw [hart1]
      exact holdsHash_setDoc_of_ne hne hfreshb
    obtain ⟨st2, evs2, h2, -, -, -, -, hcase2⟩ :=
      scrapeItem_cases (env.item 1) company b st1
    rcases hcase2 with ⟨-, hh, -⟩ | ⟨-, -, -, hn2, hd2, ha2⟩ | ⟨-, hfail, -⟩
    · rw [hfb1] at hh
      exact absurd hh (by decide)
    · have hart2 : st2.world.articles =
          setDoc (articleID company b) (articleOf (env.item 1).now company b) w.articles := by
        rw [ha2, hart1]
        show setDoc (articleID company b) _ (setDoc (articleID company a) _ _) = _
        rw [articleID_eq hhead, setDoc_setDoc]
      have hloop : scrapeItems env.item company [a, b] 0 ⟨cycleStart company w, 0, 0⟩ =
          some st2 := by
        simp only [scrapeItems, h1, h2]
      have hr := ScrapeCompany_of_items hurl hfeed hloop
      have hnew : st2.newArticleCount = 2 := by rw [hn2, hn1]
      have hdup : st2.duplicateCount = 0 := by rw [hd2, hd1]
      rw [hnew, hdup] at hr
      refine ⟨_, hr, getLast_emit _ _, articleID_eq hhead, hart2, ?_, ?_, ?_⟩
      · show st2.world.articles.length ≤ _
        rw [hart2, setDoc, List.length_cons]
        exact Nat.succ_le_succ (List.length_filter_le _ _)
      · show holdsHash st2.world.articles (contentHash a) = false
        rw [hart2]
        exact holdsHash_setDoc_of_ne (fun h => hne h.symm) hfresha
      · show holdsHash st2.world.articles (contentHash b) = true
        rw [hart2]
        exact holdsHash_of_mem (List.mem_cons_self _ _) rfl
    · rcases hfail with ⟨-, hh⟩ | hs
      · rw [hfb1] at hh
        exact absurd hh (by decide)
      · exact absurd (hwrites 1) hs
  · rcases hfail with ⟨-, hh⟩ | hs
    · rw [hfa0] at hh
      exact absurd hh (by decide)
    · exact absurd (hwrites 0) hs

/-- C19 (amended), at the two items `itemP` and `itemQ`, whose hashes start with `a1a0585b`,
scraped into an empty store. -/
theorem C19_id_collision_overwrites_witness :
    (contentHash itemP ≠ contentHash itemQ ∧ hashHead itemP = hashHead itemQ) ∧
    ∃ w1, ScrapeCompany ⟨Except.ok [itemP, itemQ], fun _ => calm⟩ exampleCompany emptyWorld =
        some ((2, none), w1) ∧
      w1.trace.getLast? = some (cycleSummary exampleCompany 2 2 0) ∧
      articleID exampleCompany itemP = articleID exampleCompany itemQ ∧
      w1.articles =
        setDoc (articleID exampleCompany itemQ) (articleOf calm.now exampleCompany itemQ)
          emptyWorld.articles ∧
      w1.articles.length ≤ emptyWorld.articles.length + 1 ∧
      holdsHash w1.articles (contentHash itemP) = false ∧
      holdsHash w1.articles (contentHash itemQ) = true :=
  ⟨by decide,
   C19_id_collision_overwrites exampleCompany itemP itemQ
    ⟨Except.ok [itemP, itemQ], fun _ => calm⟩ emptyWorld (by decide) rfl (by decide)
    (by decide) (fun _ => rfl) rfl rfl⟩

theorem storeView_setDoc (id : String) (a : FirestoreArticle)
    (docs : List (String × FirestoreArticle)) :
    storeView (setDoc id a docs) =
      (id, a.ContentHash) :: storeView (docs.filter (fun d => d.1 != id)) := rfl

/-- C20: for every two items whose link followed by title give the same string, the content
hashes are equal, and with them the derived document ids of either company. So
`ScrapeCompany` treats the second as a duplicate of the first: in every state whose store
holds the first item's fingerprint, an existence check that answers makes the loop count the
second item as a duplicate and leave the store alone; and in every state and under every
behaviour of the store the loop iteration for the second item ends with the same counters and
the same document ids and content hashes in the store as the iteration for the first. -/
theorem C20_hash_of_concatenation (a b : Item)
    (hcat : a.Link ++ a.Title = b.Link ++ b.Title) :
    contentHash a = contentHash b ∧
    ∀ (company : FirestoreCompany), articleID company a = articleID company b ∧
      ∀ (env : ItemEnv) (st : ScrapeState),
        (env.checkFault = none → holdsHash st.world.articles (contentHash a) = true →
          ∃ sb, scrapeItem env company b st = some sb ∧
            sb.duplicateCount = st.duplicateCount + 1 ∧
            sb.newArticleCount = st.newArticleCount ∧
            sb.world.articles = st.world.articles) ∧
        ∃ sa sb, scrapeItem env company a st = some sa ∧
          scrapeItem env company b st = some sb ∧
          sa.newArticleCount = sb.newArticleCount ∧
          sa.duplicateCount = sb.duplicateCount ∧
          storeView sa.world.articles = storeView sb.world.articles := by
  have hab : contentHash a = contentHash b := by
    unfold contentHash
    rw [hcat]
  have hhead : hashHead a = hashHead b := by
    unfold hashHead
    rw [hab]
  refine ⟨hab, fun company => ⟨articleID_eq hhead, fun env st => ?_⟩⟩
  obtain ⟨sa, evsa, ha, -, -, -, -, hcasea⟩ := scrapeItem_cases env company a st
  obtain ⟨sb, evsb, hb, -, -, -, -, hcaseb⟩ := scrapeItem_cases env company b st
  rw [← hab] at hcaseb
  constructor
  · intro hc hh
    rcases hcaseb with ⟨-, -, hn, hd, hart⟩ | ⟨hnc, -⟩ | ⟨hnc, -⟩
    · exact ⟨sb, hb, hd, hn, hart⟩
    · exact absurd ⟨hc, hh⟩ hnc
    · exact absurd ⟨hc, hh⟩ hnc
  · refine ⟨sa, sb, ha, hb, ?_⟩
    rcases hcasea with ⟨hc, hh, hna, hda, harta⟩ | ⟨hnc, hnq, hs, hna, hda, harta⟩ |
        ⟨hnc, hfail, hna, hda, harta⟩ <;>
      rcases hcaseb with ⟨hc2, hh2, hnb, hdb, hartb⟩ | ⟨hnc2, hnq2, hs2, hnb, hdb, hartb⟩ |
        ⟨hnc2, hfail2, hnb, hdb, hartb⟩
    · exact ⟨by rw [hna, hnb], by rw [hda, hdb], by rw [harta, hartb]⟩
    · exact absurd ⟨hc, hh⟩ hnc2
    · exact absurd ⟨hc, hh⟩ hnc2
    · exact absurd ⟨hc2, hh2⟩ hnc
    · refine ⟨by rw [hna, hnb], by rw [hda, hdb], ?_⟩
      have hid : (articleOf env.now company a).ID = (articleOf env.now company b).ID :=
        articleID_eq hhead
      rw [harta, hartb, hid, storeView_setDoc, storeView_setDoc]
      show (_, contentHash a) :: _ = (_, contentHash b) :: _
      rw [hab]
    · rcases hfail2 with hq | hns
      · exact absurd hq hnq
      · exact absurd hs hns
    · exact absurd ⟨hc2, hh2⟩ hnc
    · rcases hfail with hq | hns
      · exact absurd hq hnq2
      · exact absurd hs2 hns
    · exact ⟨by rw [hna, hnb], by rw [hda, hdb], by rw [harta, hartb]⟩

/-- C20, at the items with link `ab`, title `c` and link `a`, title `bc`; scraped together
into an empty store with nothing failing, the first is saved and the second counted as a
duplicate. -/
theorem C20_hash_of_concatenation_witness :
    ((itemAbC.Link, itemAbC.Title) ≠ (itemABc.Link, itemABc.Title) ∧
      itemAbC.Link ++ itemAbC.Title = itemABc.Link ++ itemABc.Title ∧
      (ScrapeCompany ⟨Except.ok [itemAbC, itemABc], fun _ => calm⟩ exampleCompany
          emptyWorld).map (fun r => (r.1, r.2.trace.getLast?)) =
        some ((1, none), some (cycleSummary exampleCompany 2 1 1))) ∧
    contentHash itemAbC = contentHash itemABc ∧
    ∀ (company : FirestoreCompany), articleID company itemAbC = articleID company itemABc ∧
      ∀ (env : ItemEnv) (st : ScrapeState),
        (env.checkFault = none → holdsHash st.world.articles (contentHash itemAbC) = true →
          ∃ sb, scrapeItem env company itemABc st = some sb ∧
            sb.duplicateCount = st.duplicateCount + 1 ∧
            sb.newArticleCount = st.newArticleCount ∧
            sb.world.articles = st.world.articles) ∧
        ∃ sa sb, scrapeItem env company itemAbC st = some sa ∧
          scrapeItem env company itemABc st = some sb ∧
          sa.newArticleCount = sb.newArticleCount ∧
          sa.duplicateCount = sb.duplicateCount ∧
          storeView sa.world.articles = storeView sb.world.articles :=
  ⟨by decide, C20_hash_of_concatenation itemAbC itemABc (by decide)⟩

end Lookie
